import Mathlib

/-!
Junipero: sessions, channels and the engine.

A shallow embedding of `junipero.go`, `session.go`, `channel.go` and `status.go`.

The Go program works on a heap of `*Session` and `*Channel` objects that point at
each other.  The embedding keeps that heap explicit: an `Engine` value holds the
fields of the Go `Engine` struct together with the objects reachable from it,
addressed by numeric pointers.  Everything outside the repository is a parameter:

* the websocket connection is an abstract handle (`Conn`) and the result of every
  transport call is given by an arbitrary `Transport` that may look at the whole
  history of transport calls;
* the user supplied `Handler` is an observer: each callback is recorded in the
  engine trace.
-/

namespace Junipero

/-! ## Go maps -/

/-- An allocated Go map (the result of `make(map[K]V)` and later assignments):
its entries, listed in the order in which a `range` loop visits them.  Go leaves
that order unspecified; statements that quantify over every table therefore hold
for every order. -/
structure Table (K V : Type) where
  entries : List (K × V)
deriving DecidableEq

/-- Value stored under a key in a list of entries (first match). -/
def lookupKey {K V : Type} [DecidableEq K] : List (K × V) → K → Option V
  | [], _ => none
  | (k', v) :: t, k => if k' = k then some v else lookupKey t k

/-- Entries left after removing every entry with key `k`. -/
def eraseKey {K V : Type} [DecidableEq K] : List (K × V) → K → List (K × V)
  | [], _ => []
  | (k', v) :: t, k => if k' = k then eraseKey t k else (k', v) :: eraseKey t k

namespace Table

variable {K V : Type} [DecidableEq K]

/-- The map `make(map[K]V)`. -/
def empty : Table K V := ⟨[]⟩

/-- The lookup `v, ok := m[k]`: `some v` when `ok`, `none` otherwise. -/
def get? (t : Table K V) (k : K) : Option V := lookupKey t.entries k

/-- The test `_, ok := m[k]`. -/
def contains (t : Table K V) (k : K) : Bool := (t.get? k).isSome

/-- The statement `delete(m, k)`. -/
def delete (t : Table K V) (k : K) : Table K V :=
  ⟨eraseKey t.entries k⟩

/-- The statement `m[k] = v` on an allocated map. -/
def set (t : Table K V) (k : K) (v : V) : Table K V :=
  ⟨(k, v) :: (t.delete k).entries⟩

/-- Keys of the map, in iteration order. -/
def keys (t : Table K V) : List K := t.entries.map Prod.fst

/-- The builtin `len(m)`. -/
def len (t : Table K V) : Nat := t.entries.length

end Table

/-- A loop `for k, v := range m { body }` whose body may delete entries of `m`.
`ks` are the keys present when the loop starts, `live` reads the current contents
of `m` in the current state.  As in Go, a key that has been deleted before it is
reached is not produced, and the value handed to the body is the one stored when
the key is reached. -/
def rangeLoop {σ K V : Type} [DecidableEq K] (live : σ → Table K V)
    (body : σ → K → V → σ) : List K → σ → σ
  | [], st => st
  | k :: ks, st =>
    match (live st).get? k with
    | some v => rangeLoop live body ks (body st k v)
    | none => rangeLoop live body ks st

/-! ## Vocabulary (`status.go`) -/

/-- Address of a `Session` object. -/
abbrev SessionPtr := Nat

/-- Address of a `Channel` object. -/
abbrev ChannelPtr := Nat

/-- Handle of a `*websocket.Conn`. -/
abbrev Conn := Nat

/-- The error values of `status.go`, and the errors that come from the
transport library (identified by a code). -/
inductive Error
  | ErrEngineClosed
  | ErrChannelClosed
  | ErrSessionTimedOut
  | ErrConnectionClosed
  | ErrSessionClosed
  | ErrChannelNotFound
  | ErrChannelSubscribed
  | ErrChannelNotSubscribed
  | ErrKeyNotFound
  | ErrWriteTimedOut
  | transport (code : Nat)
deriving DecidableEq

/-- A data frame: `TextMessage` with its text or `BinaryMessage` with its bytes. -/
inductive Payload
  | text (msg : String)
  | binary (msg : List Nat)
deriving DecidableEq

/-- A value of the scratch store (`interface{}`). -/
inductive Value
  | str (s : String)
  | bool (b : Bool)
  | int (i : Int)
  | other (code : Nat)
deriving DecidableEq

/-- What the outside world sees of a run: transport calls and handler callbacks,
oldest first. -/
inductive Event
  | write (s : SessionPtr) (conn : Conn) (p : Payload) (err : Option Nat)
  | sent (s : SessionPtr) (p : Payload)
  | connClose (s : SessionPtr) (conn : Conn) (err : Option Nat)
deriving DecidableEq

/-- The transport library: the result (`none` for a nil error) of
`conn.WriteMessage` and of `conn.Close`, given everything that happened so far. -/
structure Transport where
  WriteMessage : Conn → Payload → List Event → Option Nat
  Close : Conn → List Event → Option Nat

/-- How a call ends: it returns its `error` result (`none` for nil), or the Go
run time panics. -/
inductive Outcome
  | returned (err : Option Error)
  | panicked
deriving DecidableEq

/-! ## Data model -/

/-- The struct `Session` (the `engine` field is the one engine of the state). -/
structure Session where
  id : Int
  store : Table String Value
  Subscriptions : Table String ChannelPtr
  isClosed : Bool
  conn : Conn

/-- The struct `ChannelConfig`. -/
structure ChannelConfig where
deriving DecidableEq

/-- The struct `Channel`.  `Sessions` is `none` for the nil map. -/
structure Channel where
  name : String
  Sessions : Option (Table Int SessionPtr)
  isClosed : Bool
  config : Option ChannelConfig

/-- The struct `websocket.Upgrader`, as far as `DefaultConfig` sets it. -/
structure Upgrader where
  HandshakeTimeout : Int
  ReadBufferSize : Int
  WriteBufferSize : Int
deriving DecidableEq

/-- The struct `EngineConfig`; durations are `time.Duration` values, a count of
nanoseconds. -/
structure EngineConfig where
  WriteWait : Int
  PongWait : Int
  PingPeriod : Int
  MaxMessageSize : Int
  Upgrader : Upgrader
deriving DecidableEq

/-- The constant `time.Second`. -/
def Second : Int := 1000000000

/-- The function `DefaultConfig`. -/
def DefaultConfig : EngineConfig :=
  { WriteWait := 30
    PongWait := 10
    PingPeriod := 20
    MaxMessageSize := 10 * 1024 * 1024
    Upgrader :=
      { HandshakeTimeout := 30 * Second
        ReadBufferSize := 1024
        WriteBufferSize := 1024 } }

/-- The struct `Engine` together with the heap it points into.  `sessions` and
`channels` are allocated by `NewServer` and unexported, so they are never nil.
`lastID` is a Go `int`; every session ever created stays in `sessions`, so the
counter cannot reach the word size before memory is exhausted and is kept
unbounded.  `sessionAt` and `channelAt` are the heap; `nextSession` and
`nextChannel` are the next free addresses; `trace` is the history of transport
calls and handler callbacks. -/
structure Engine where
  sessions : Table Int SessionPtr
  channels : Table String ChannelPtr
  config : EngineConfig
  isClosed : Bool
  lastID : Int
  sessionAt : SessionPtr → Session
  channelAt : ChannelPtr → Channel
  nextSession : SessionPtr
  nextChannel : ChannelPtr
  trace : List Event

/-- Content of an address that has not been allocated. -/
def Session.zero : Session :=
  { id := 0, store := Table.empty, Subscriptions := Table.empty, isClosed := false, conn := 0 }

/-- Content of an address that has not been allocated. -/
def Channel.zero : Channel :=
  { name := "", Sessions := none, isClosed := false, config := none }

/-- Reading `c.Sessions`: a nil map reads as a map without entries. -/
def Channel.members (c : Channel) : Table Int SessionPtr :=
  match c.Sessions with
  | none => Table.empty
  | some m => m

/-- Store `s` at address `p`. -/
def Engine.setSession (e : Engine) (p : SessionPtr) (s : Session) : Engine :=
  { e with sessionAt := Function.update e.sessionAt p s }

/-- Store `c` at address `p`. -/
def Engine.setChannel (e : Engine) (p : ChannelPtr) (c : Channel) : Engine :=
  { e with channelAt := Function.update e.channelAt p c }

/-- Append an event to the trace. -/
def Engine.log (e : Engine) (ev : Event) : Engine :=
  { e with trace := e.trace ++ [ev] }

/-! ## `junipero.go` and `session.go`: construction -/

/-- The function `NewServer`. -/
def NewServer (conf : EngineConfig) : Engine :=
  { sessions := Table.empty
    channels := Table.empty
    config := conf
    isClosed := false
    lastID := 0
    sessionAt := fun _ => Session.zero
    channelAt := fun _ => Channel.zero
    nextSession := 0
    nextChannel := 0
    trace := [] }

/-- The method `Engine.NewSession`: the new engine state and the new session. -/
def Engine.NewSession (e : Engine) (conn : Conn) : Engine × SessionPtr :=
  let lastID := e.lastID + 1
  let p := e.nextSession
  let s : Session :=
    { id := lastID
      store := Table.empty
      Subscriptions := Table.empty
      isClosed := false
      conn := conn }
  ({ e with
      lastID := lastID
      sessionAt := Function.update e.sessionAt p s
      nextSession := p + 1
      sessions := e.sessions.set lastID p }, p)

/-- The method `Engine.NewChannel`: the new engine state and the new channel.
The composite literal sets `name` and `config` only, so `Sessions` is the nil
map. -/
def Engine.NewChannel (e : Engine) (name : String) (conf : Option ChannelConfig) :
    Engine × ChannelPtr :=
  let p := e.nextChannel
  let ch : Channel := { name := name, Sessions := none, isClosed := false, config := conf }
  ({ e with
      channelAt := Function.update e.channelAt p ch
      nextChannel := p + 1
      channels := e.channels.set name p }, p)

/-- The method `Engine.IsClosed`. -/
def Engine.IsClosed (e : Engine) : Bool := e.isClosed

/-- The method `Engine.Len`. -/
def Engine.Len (e : Engine) : Nat := e.sessions.len

/-! ## `session.go` -/

/-- The method `Session.Get`: `some v` for `(v, true)`, `none` for `(nil, false)`. -/
def Session.Get (e : Engine) (s : SessionPtr) (k : String) : Option Value :=
  (e.sessionAt s).store.get? k

/-- The method `Session.Set`. -/
def Session.Set (e : Engine) (s : SessionPtr) (k : String) (v : Value) : Engine :=
  e.setSession s { e.sessionAt s with store := (e.sessionAt s).store.set k v }

/-- The method `Session.Delete`. -/
def Session.Delete (e : Engine) (s : SessionPtr) (k : String) : Engine × Option Error :=
  match (e.sessionAt s).store.get? k with
  | none => (e, some Error.ErrKeyNotFound)
  | some _ =>
    (e.setSession s { e.sessionAt s with store := (e.sessionAt s).store.delete k }, none)

/-- The method `Session.IsClosed`. -/
def Session.IsClosed (e : Engine) (s : SessionPtr) : Bool := (e.sessionAt s).isClosed

/-- The method `Session.Close`. -/
def Session.Close (net : Transport) (e : Engine) (s : SessionPtr) : Engine × Option Error :=
  if (e.sessionAt s).isClosed then (e, some Error.ErrSessionClosed)
  else
    let e1 := e.setSession s { e.sessionAt s with isClosed := true }
    let r := net.Close (e.sessionAt s).conn e1.trace
    (e1.log (Event.connClose s (e.sessionAt s).conn r), r.map Error.transport)

/-- Body shared by `Session.Write` and `Session.WriteBinary`: one call of
`conn.WriteMessage`, then `SentMessage` or `SentMessageBinary` when it returned
nil. -/
def Session.writePayload (net : Transport) (e : Engine) (s : SessionPtr) (p : Payload) :
    Engine × Option Error :=
  let conn := (e.sessionAt s).conn
  let r := net.WriteMessage conn p e.trace
  let e1 := e.log (Event.write s conn p r)
  match r with
  | none => (e1.log (Event.sent s p), none)
  | some code => (e1, some (Error.transport code))

/-- The method `Session.Write`. -/
def Session.Write (net : Transport) (e : Engine) (s : SessionPtr) (msg : String) :
    Engine × Option Error :=
  Session.writePayload net e s (Payload.text msg)

/-- The method `Session.WriteBinary`. -/
def Session.WriteBinary (net : Transport) (e : Engine) (s : SessionPtr) (msg : List Nat) :
    Engine × Option Error :=
  Session.writePayload net e s (Payload.binary msg)

/-- Body shared by `Session.CloseWithMsg` and `Session.CloseWithBinary`. -/
def Session.closeWithPayload (net : Transport) (e : Engine) (s : SessionPtr) (p : Payload) :
    Engine × Option Error :=
  let r := Session.writePayload net e s p
  match r.2 with
  | some err => (r.1, some err)
  | none =>
    let r2 := Session.Close net r.1 s
    match r2.2 with
    | some err => (r2.1, some err)
    | none => (r2.1, none)

/-- The method `Session.CloseWithMsg`. -/
def Session.CloseWithMsg (net : Transport) (e : Engine) (s : SessionPtr) (msg : String) :
    Engine × Option Error :=
  Session.closeWithPayload net e s (Payload.text msg)

/-- The method `Session.CloseWithBinary`. -/
def Session.CloseWithBinary (net : Transport) (e : Engine) (s : SessionPtr) (msg : List Nat) :
    Engine × Option Error :=
  Session.closeWithPayload net e s (Payload.binary msg)

/-- The method `Session.Subscribe`.  The assignment `v.Sessions[s.id] = s` panics
when `v.Sessions` is the nil map. -/
def Session.Subscribe (e : Engine) (s : SessionPtr) (ch : String) : Engine × Outcome :=
  match e.channels.get? ch with
  | none => (e, Outcome.returned (some Error.ErrChannelNotFound))
  | some v =>
    if (e.channelAt v).members.contains (e.sessionAt s).id then
      (e, Outcome.returned (some Error.ErrChannelSubscribed))
    else
      match (e.channelAt v).Sessions with
      | none => (e, Outcome.panicked)
      | some m =>
        let e1 := e.setChannel v { e.channelAt v with Sessions := some (m.set (e.sessionAt s).id s) }
        let e2 := e1.setSession s
          { e1.sessionAt s with Subscriptions := (e1.sessionAt s).Subscriptions.set ch v }
        (e2, Outcome.returned none)

/-- The method `Session.Unsubscribe`.  `delete` on a nil map does nothing. -/
def Session.Unsubscribe (e : Engine) (s : SessionPtr) (ch : String) : Engine × Option Error :=
  match e.channels.get? ch with
  | none => (e, some Error.ErrChannelNotFound)
  | some v =>
    if (e.channelAt v).members.contains (e.sessionAt s).id then
      let e1 := e.setChannel v
        { e.channelAt v with
          Sessions := (e.channelAt v).Sessions.map (fun m => m.delete (e.sessionAt s).id) }
      let e2 := e1.setSession s
        { e1.sessionAt s with Subscriptions := (e1.sessionAt s).Subscriptions.delete ch }
      (e2, none)
    else (e, some Error.ErrChannelNotSubscribed)

/-- The method `Session.UnsubscribeAll`. -/
def Session.UnsubscribeAll (e : Engine) (s : SessionPtr) : Engine :=
  rangeLoop (fun st => (st.sessionAt s).Subscriptions)
    (fun st k _ => (Session.Unsubscribe st s k).1)
    (e.sessionAt s).Subscriptions.keys e

/-- The method `Session.IsSubscribed`. -/
def Session.IsSubscribed (e : Engine) (s : SessionPtr) (ch : String) : Bool :=
  (e.sessionAt s).Subscriptions.contains ch

/-! ## `channel.go` -/

/-- The loop of the six broadcast methods: a write to every member that passes
`cond`. -/
def Channel.broadcastLoop (net : Transport) (e : Engine) (c : ChannelPtr) (p : Payload)
    (cond : Engine → SessionPtr → Bool) : Engine :=
  rangeLoop (fun st => (st.channelAt c).members)
    (fun st _ v => if cond st v then (Session.writePayload net st v p).1 else st)
    (e.channelAt c).members.keys e

/-- The six broadcast methods share their body: the closed check, the loop and
the nil result. -/
def Channel.broadcastWith (net : Transport) (e : Engine) (c : ChannelPtr) (p : Payload)
    (cond : Engine → SessionPtr → Bool) : Engine × Option Error :=
  if (e.channelAt c).isClosed then (e, some Error.ErrChannelClosed)
  else (Channel.broadcastLoop net e c p cond, none)

/-- The method `Channel.Broadcast`. -/
def Channel.Broadcast (net : Transport) (e : Engine) (c : ChannelPtr) (msg : String) :
    Engine × Option Error :=
  Channel.broadcastWith net e c (Payload.text msg) (fun _ _ => true)

/-- The method `Channel.BroadcastFilter`; `fn` sees the session it is asked about. -/
def Channel.BroadcastFilter (net : Transport) (e : Engine) (c : ChannelPtr) (msg : String)
    (fn : SessionPtr → Session → Bool) : Engine × Option Error :=
  Channel.broadcastWith net e c (Payload.text msg) (fun st v => fn v (st.sessionAt v))

/-- The method `Channel.BroadcastOthers`; `v != s` compares pointers. -/
def Channel.BroadcastOthers (net : Transport) (e : Engine) (c : ChannelPtr) (msg : String)
    (s : SessionPtr) : Engine × Option Error :=
  Channel.broadcastWith net e c (Payload.text msg) (fun _ v => decide (v ≠ s))

/-- The method `Channel.BroadcastBinary`. -/
def Channel.BroadcastBinary (net : Transport) (e : Engine) (c : ChannelPtr) (msg : List Nat) :
    Engine × Option Error :=
  Channel.broadcastWith net e c (Payload.binary msg) (fun _ _ => true)

/-- The method `Channel.BroadcastBinaryFilter`. -/
def Channel.BroadcastBinaryFilter (net : Transport) (e : Engine) (c : ChannelPtr)
    (msg : List Nat) (fn : SessionPtr → Session → Bool) : Engine × Option Error :=
  Channel.broadcastWith net e c (Payload.binary msg) (fun st v => fn v (st.sessionAt v))

/-- The method `Channel.BroadcastBinaryOthers`. -/
def Channel.BroadcastBinaryOthers (net : Transport) (e : Engine) (c : ChannelPtr)
    (msg : List Nat) (s : SessionPtr) : Engine × Option Error :=
  Channel.broadcastWith net e c (Payload.binary msg) (fun _ v => decide (v ≠ s))

/-- The method `Channel.Close`. -/
def Channel.Close (e : Engine) (c : ChannelPtr) : Engine × Option Error :=
  if (e.channelAt c).isClosed then (e, some Error.ErrChannelClosed)
  else
    let e1 := e.setChannel c { e.channelAt c with isClosed := true }
    (rangeLoop (fun st => (st.channelAt c).members)
      (fun st _ v => (Session.Unsubscribe st v (st.channelAt c).name).1)
      (e1.channelAt c).members.keys e1, none)

/-- One iteration of the loop of `Channel.CloseWithMsg` and `Channel.CloseWithBinary`:
`v.Unsubscribe(c.name)` and then the write. -/
def Channel.closeStep (net : Transport) (c : ChannelPtr) (p : Payload) (st : Engine)
    (v : SessionPtr) : Engine :=
  (Session.writePayload net (Session.Unsubscribe st v (st.channelAt c).name).1 v p).1

/-- Body shared by `Channel.CloseWithMsg` and `Channel.CloseWithBinary`. -/
def Channel.closeWithPayload (net : Transport) (e : Engine) (c : ChannelPtr) (p : Payload) :
    Engine × Option Error :=
  if (e.channelAt c).isClosed then (e, some Error.ErrChannelClosed)
  else
    let e1 := e.setChannel c { e.channelAt c with isClosed := true }
    (rangeLoop (fun st => (st.channelAt c).members)
      (fun st _ v => Channel.closeStep net c p st v)
      (e1.channelAt c).members.keys e1, none)

/-- The method `Channel.CloseWithMsg`. -/
def Channel.CloseWithMsg (net : Transport) (e : Engine) (c : ChannelPtr) (msg : String) :
    Engine × Option Error :=
  Channel.closeWithPayload net e c (Payload.text msg)

/-- The method `Channel.CloseWithBinary`. -/
def Channel.CloseWithBinary (net : Transport) (e : Engine) (c : ChannelPtr) (msg : List Nat) :
    Engine × Option Error :=
  Channel.closeWithPayload net e c (Payload.binary msg)

/-- The method `Channel.IsClosed`. -/
def Channel.IsClosed (e : Engine) (c : ChannelPtr) : Bool := (e.channelAt c).isClosed

/-- The method `Channel.Contains`. -/
def Channel.Contains (e : Engine) (c : ChannelPtr) (s : SessionPtr) : Bool :=
  (e.channelAt c).members.contains (e.sessionAt s).id

/-- The method `Channel.Len`. -/
def Channel.Len (e : Engine) (c : ChannelPtr) : Nat := (e.channelAt c).members.len

/-- The assignment `c.Sessions = make(map[int]*Session)` that code outside the
package can make to the exported field; `NewChannel` leaves the field nil. -/
def Channel.makeSessions (e : Engine) (c : ChannelPtr) : Engine :=
  e.setChannel c { e.channelAt c with Sessions := some Table.empty }

/-! ## `junipero.go`: shutdown -/

/-- The method `Engine.Close`. -/
def Engine.Close (net : Transport) (e : Engine) : Engine :=
  let e1 := rangeLoop (fun st => st.sessions)
    (fun st _ v => (Session.Close net st v).1) e.sessions.keys e
  { e1 with isClosed := true }

/-- Body shared by `Engine.CloseWithMsg` and `Engine.CloseWithBinary`. -/
def Engine.closeWithPayload (net : Transport) (e : Engine) (p : Payload) : Engine :=
  let e1 := rangeLoop (fun st => st.sessions)
    (fun st _ v => (Session.closeWithPayload net st v p).1) e.sessions.keys e
  { e1 with isClosed := true }

/-- The method `Engine.CloseWithMsg`. -/
def Engine.CloseWithMsg (net : Transport) (e : Engine) (msg : String) : Engine :=
  Engine.closeWithPayload net e (Payload.text msg)

/-- The method `Engine.CloseWithBinary`. -/
def Engine.CloseWithBinary (net : Transport) (e : Engine) (msg : List Nat) : Engine :=
  Engine.closeWithPayload net e (Payload.binary msg)

/-- The state after a successful `Subscribe`. -/
def Session.subscribed (e : Engine) (s : SessionPtr) (ch : String) (v : ChannelPtr)
    (m : Table Int SessionPtr) : Engine :=
  (e.setChannel v { e.channelAt v with Sessions := some (m.set (e.sessionAt s).id s) }).setSession s
    { e.sessionAt s with Subscriptions := (e.sessionAt s).Subscriptions.set ch v }

/-- The state after a successful `Unsubscribe`. -/
def Session.unsubscribed (e : Engine) (s : SessionPtr) (ch : String) (v : ChannelPtr) : Engine :=
  (e.setChannel v
    { e.channelAt v with
      Sessions := (e.channelAt v).Sessions.map (fun m => m.delete (e.sessionAt s).id) }).setSession s
    { e.sessionAt s with Subscriptions := (e.sessionAt s).Subscriptions.delete ch }

/-! ## Invariants of the heap -/

/-- Session `s` is a session of the engine: the session table holds it under its
own id. -/
def Engine.HasSession (e : Engine) (s : SessionPtr) : Prop :=
  e.sessions.get? (e.sessionAt s).id = some s

instance (e : Engine) (s : SessionPtr) : Decidable (e.HasSession s) := by
  unfold Engine.HasSession
  infer_instance

/-- Bidirectional membership: for every session `s` of the session table and
every channel `c` of the channel table, `c.Sessions` contains `s.id` exactly when
`s.Subscriptions` contains `c.name`. -/
def Engine.Membership (e : Engine) : Prop :=
  ∀ (i : Int) (s : SessionPtr) (n : String) (c : ChannelPtr),
    e.sessions.get? i = some s → e.channels.get? n = some c →
    (e.channelAt c).members.contains (e.sessionAt s).id =
      (e.sessionAt s).Subscriptions.contains (e.channelAt c).name

/-- What the constructors establish about the heap: a channel is registered under
its own name and a session under its own id, registered objects are allocated,
ids do not exceed the counter, and the members of any channel are sessions of the
engine, stored under their ids. -/
structure Engine.WellFormed (e : Engine) : Prop where
  channel_name : ∀ n c, e.channels.get? n = some c → (e.channelAt c).name = n
  channel_lt : ∀ n c, e.channels.get? n = some c → c < e.nextChannel
  session_id : ∀ i s, e.sessions.get? i = some s → (e.sessionAt s).id = i
  session_lt : ∀ i s, e.sessions.get? i = some s → s < e.nextSession
  session_le : ∀ i s, e.sessions.get? i = some s → i ≤ e.lastID
  member : ∀ c k s, (e.channelAt c).members.get? k = some s → e.sessions.get? k = some s

/-- The part of the state that subscribing, unsubscribing, writing and closing
leave alone: both tables, the counters, the id of every session and the name of
every channel. -/
structure Engine.Frame (e e' : Engine) : Prop where
  sessions : e'.sessions = e.sessions
  channels : e'.channels = e.channels
  lastID : e'.lastID = e.lastID
  nextSession : e'.nextSession = e.nextSession
  nextChannel : e'.nextChannel = e.nextChannel
  id : ∀ p, (e'.sessionAt p).id = (e.sessionAt p).id
  name : ∀ c, (e'.channelAt c).name = (e.channelAt c).name

/-- The states `e` and `e'` have the same tables, counters, ids and names, and
the same member set in every channel and subscription set in every session. -/
structure Engine.SameLinks (e e' : Engine) : Prop where
  frame : Engine.Frame e e'
  members : ∀ c, (e'.channelAt c).members = (e.channelAt c).members
  subscriptions : ∀ p, (e'.sessionAt p).Subscriptions = (e.sessionAt p).Subscriptions

/-- The states `e` and `e'` differ in the trace only. -/
structure Engine.SameHeap (e e' : Engine) : Prop where
  sessions : e'.sessions = e.sessions
  channels : e'.channels = e.channels
  config : e'.config = e.config
  isClosed : e'.isClosed = e.isClosed
  lastID : e'.lastID = e.lastID
  sessionAt : e'.sessionAt = e.sessionAt
  channelAt : e'.channelAt = e.channelAt
  nextSession : e'.nextSession = e.nextSession
  nextChannel : e'.nextChannel = e.nextChannel

/-- The state is consistent: the heap is well formed and bidirectional
membership holds. -/
def Engine.Consistent (e : Engine) : Prop := e.WellFormed ∧ e.Membership

/-! ## What the loop of `Channel.Close` relies on -/

/-- Channel `c` is the channel registered under `name`, and each of its members
is stored under its own id. -/
structure Channel.Closing (c : ChannelPtr) (name : String) (st : Engine) : Prop where
  registered : st.channels.get? name = some c
  name_eq : (st.channelAt c).name = name
  keyed : ∀ k v, (st.channelAt c).members.get? k = some v → (st.sessionAt v).id = k

/-- From `st` to `st'` the member `v`, stored under `k`, left channel `c`: the key
is gone from the member map, `name` is gone from the subscription set of `v`, and
nothing else changed in either. -/
structure Channel.Evicted (c : ChannelPtr) (name : String) (k : Int) (v : SessionPtr)
    (st st' : Engine) : Prop where
  closing : Channel.Closing c name st'
  isClosed : (st'.channelAt c).isClosed = (st.channelAt c).isClosed
  members : (st'.channelAt c).members = (st.channelAt c).members.delete k
  subscriptions : ∀ p, (st'.sessionAt p).Subscriptions =
    if p = v then (st.sessionAt v).Subscriptions.delete name else (st.sessionAt p).Subscriptions

/-- The result `r` of closing channel `c` in state `e`: no error, the channel is
closed, every session that was stored in its member map is no longer subscribed
to its name, and the channel has no members. -/
def Channel.EvictsAll (e : Engine) (c : ChannelPtr) (r : Engine × Option Error) : Prop :=
  r.2 = none ∧ Channel.IsClosed r.1 c = true ∧
  (∀ k v, (e.channelAt c).members.get? k = some v →
    Session.IsSubscribed r.1 v (e.channelAt c).name = false) ∧
  Channel.Len r.1 c = 0

/-- The transport writes recorded in a trace, oldest first: the session whose
`Write` or `WriteBinary` made the call, and the payload. -/
def writesOf : List Event → List (SessionPtr × Payload)
  | [] => []
  | Event.write s _ p _ :: t => (s, p) :: writesOf t
  | Event.sent _ _ :: t => writesOf t
  | Event.connClose _ _ _ :: t => writesOf t

/-- The result `r` of a broadcast of `p` on channel `c` in state `e`: no error, and
the writes it added to the trace are one write of `p` for each entry of the member
map whose session passes `sel`, and nothing else. -/
def Channel.WritesExactly (e : Engine) (c : ChannelPtr) (p : Payload)
    (sel : SessionPtr → Bool) (r : Engine × Option Error) : Prop :=
  r.2 = none ∧
  writesOf r.1.trace = writesOf e.trace ++
    ((e.channelAt c).members.entries.filter (fun kv => sel kv.2)).map (fun kv => (kv.2, p))

/-- The state `e` with the closed flag of session `s` set to `b`. -/
def Engine.withClosed (e : Engine) (s : SessionPtr) (b : Bool) : Engine :=
  e.setSession s { e.sessionAt s with isClosed := b }

/-! ## Runs of the engine -/

/-- A call of one of the functions above, with its arguments. -/
inductive Call
  | NewSession (conn : Conn)
  | NewChannel (name : String) (conf : Option ChannelConfig)
  | makeSessions (c : ChannelPtr)
  | Set (s : SessionPtr) (k : String) (v : Value)
  | Delete (s : SessionPtr) (k : String)
  | Write (s : SessionPtr) (msg : String)
  | WriteBinary (s : SessionPtr) (msg : List Nat)
  | SessionClose (s : SessionPtr)
  | SessionCloseWithMsg (s : SessionPtr) (msg : String)
  | SessionCloseWithBinary (s : SessionPtr) (msg : List Nat)
  | Subscribe (s : SessionPtr) (ch : String)
  | Unsubscribe (s : SessionPtr) (ch : String)
  | UnsubscribeAll (s : SessionPtr)
  | Broadcast (c : ChannelPtr) (msg : String)
  | BroadcastFilter (c : ChannelPtr) (msg : String) (fn : SessionPtr → Session → Bool)
  | BroadcastOthers (c : ChannelPtr) (msg : String) (x : SessionPtr)
  | BroadcastBinary (c : ChannelPtr) (msg : List Nat)
  | BroadcastBinaryFilter (c : ChannelPtr) (msg : List Nat) (fn : SessionPtr → Session → Bool)
  | BroadcastBinaryOthers (c : ChannelPtr) (msg : List Nat) (x : SessionPtr)
  | ChannelClose (c : ChannelPtr)
  | ChannelCloseWithMsg (c : ChannelPtr) (msg : String)
  | ChannelCloseWithBinary (c : ChannelPtr) (msg : List Nat)
  | EngineClose
  | EngineCloseWithMsg (msg : String)
  | EngineCloseWithBinary (msg : List Nat)

/-- The state after a call. -/
def Engine.after (net : Transport) (e : Engine) : Call → Engine
  | Call.NewSession conn => (e.NewSession conn).1
  | Call.NewChannel name conf => (e.NewChannel name conf).1
  | Call.makeSessions c => Channel.makeSessions e c
  | Call.Set s k v => Session.Set e s k v
  | Call.Delete s k => (Session.Delete e s k).1
  | Call.Write s msg => (Session.Write net e s msg).1
  | Call.WriteBinary s msg => (Session.WriteBinary net e s msg).1
  | Call.SessionClose s => (Session.Close net e s).1
  | Call.SessionCloseWithMsg s msg => (Session.CloseWithMsg net e s msg).1
  | Call.SessionCloseWithBinary s msg => (Session.CloseWithBinary net e s msg).1
  | Call.Subscribe s ch => (Session.Subscribe e s ch).1
  | Call.Unsubscribe s ch => (Session.Unsubscribe e s ch).1
  | Call.UnsubscribeAll s => Session.UnsubscribeAll e s
  | Call.Broadcast c msg => (Channel.Broadcast net e c msg).1
  | Call.BroadcastFilter c msg fn => (Channel.BroadcastFilter net e c msg fn).1
  | Call.BroadcastOthers c msg x => (Channel.BroadcastOthers net e c msg x).1
  | Call.BroadcastBinary c msg => (Channel.BroadcastBinary net e c msg).1
  | Call.BroadcastBinaryFilter c msg fn => (Channel.BroadcastBinaryFilter net e c msg fn).1
  | Call.BroadcastBinaryOthers c msg x => (Channel.BroadcastBinaryOthers net e c msg x).1
  | Call.ChannelClose c => (Channel.Close e c).1
  | Call.ChannelCloseWithMsg c msg => (Channel.CloseWithMsg net e c msg).1
  | Call.ChannelCloseWithBinary c msg => (Channel.CloseWithBinary net e c msg).1
  | Call.EngineClose => Engine.Close net e
  | Call.EngineCloseWithMsg msg => Engine.CloseWithMsg net e msg
  | Call.EngineCloseWithBinary msg => Engine.CloseWithBinary net e msg

/-- What a call of `NewSession` returned: the new session and its id. -/
def Engine.created (e : Engine) : Call → List (SessionPtr × Int)
  | Call.NewSession conn => [((e.NewSession conn).2, ((e.NewSession conn).1.sessionAt (e.NewSession conn).2).id)]
  | _ => []

/-- Run a sequence of calls: the final state and, in the order of the calls, the
session and id returned by each call of `NewSession`. -/
def Engine.run (net : Transport) : Engine → List Call → Engine × List (SessionPtr × Int)
  | e, [] => (e, [])
  | e, c :: cs =>
    ((Engine.run net (e.after net c) cs).1, e.created c ++ (Engine.run net (e.after net c) cs).2)

/-- The session part of the state is the same in `e` and `e'`: the session table,
the id counter, the next free session address and the id of every session. -/
structure Engine.SameSessions (e e' : Engine) : Prop where
  sessions : e'.sessions = e.sessions
  lastID : e'.lastID = e.lastID
  nextSession : e'.nextSession = e.nextSession
  id : ∀ p, (e'.sessionAt p).id = (e.sessionAt p).id

/-- Every entry of the session table is below the counters. -/
def Engine.Bounded (e : Engine) : Prop :=
  ∀ i s, e.sessions.get? i = some s → i ≤ e.lastID ∧ s < e.nextSession

/-! ## Example states -/

/-- A transport on which every call succeeds. -/
def Example.net : Transport := ⟨fun _ _ _ => none, fun _ _ => none⟩

/-- A transport on which every write fails with code 1 and every close succeeds. -/
def Example.failing : Transport := ⟨fun _ _ _ => some 1, fun _ _ => none⟩

/-- A new server with the channel `"room"` (at address 0), as `NewChannel` leaves it. -/
def Example.fresh : Engine := ((NewServer DefaultConfig).NewChannel "room" none).1

/-- The server of `Example.fresh` with one session (at address 0, id 1). -/
def Example.lobby : Engine := (Example.fresh.NewSession 7).1

/-- The server of `Example.fresh` after the client code allocated the member map
of `"room"`, with one session (at address 0, id 1). -/
def Example.ready : Engine := ((Channel.makeSessions Example.fresh 0).NewSession 7).1

/-- The state of `Example.ready` after the session subscribed to `"room"`. -/
def Example.joined : Engine := (Session.Subscribe Example.ready 0 "room").1

/-- The state in which `Channel.CloseWithMsg` on `"room"` of `Example.joined`
enters its loop: the closed flag of the channel is set. -/
def Example.closing : Engine :=
  Example.joined.setChannel 0 { Example.joined.channelAt 0 with isClosed := true }

/-- The state of `Example.joined` after the session stored the key `"k"` and was
closed. -/
def Example.closed : Engine :=
  (Session.Close Example.net (Session.Set Example.joined 0 "k" (Value.int 5)) 0).1

/-- The state of `Example.joined` after `NewChannel("room")` was called again:
the name `"room"` now belongs to a new channel (address 1) and the channel at
address 0, which still has its member, is no longer registered. -/
def Example.replaced : Engine := (Example.joined.NewChannel "room" none).1

/-- Three sessions (addresses 0, 1, 2 with ids 1, 2, 3); the first two are
subscribed to `"room"`. -/
def Example.party : Engine :=
  (Session.Subscribe
    (Session.Subscribe
      ((((Example.ready.NewSession 8).1).NewSession 9).1) 0 "room").1 1 "room").1

/-! ## Facts about maps -/

section TableFacts

variable {K V : Type} [DecidableEq K]

theorem lookupKey_eraseKey_self (l : List (K × V)) (k : K) :
    lookupKey (eraseKey l k) k = none := by
  induction l with
  | nil => rfl
  | cons a t ih =>
    obtain ⟨a1, a2⟩ := a
    by_cases h : a1 = k
    · simp [eraseKey, h, ih]
    · simp [eraseKey, h, lookupKey, ih]

theorem lookupKey_eraseKey_ne (l : List (K × V)) {k k' : K} (h : k' ≠ k) :
    lookupKey (eraseKey l k) k' = lookupKey l k' := by
  induction l with
  | nil => rfl
  | cons a t ih =>
    obtain ⟨a1, a2⟩ := a
    by_cases h1 : a1 = k
    · have h2 : ¬ k = k' := fun h3 => h h3.symm
      simp [eraseKey, h1, lookupKey, ih, h2]
    · by_cases h2 : a1 = k'
      · subst h2
        simp [eraseKey, h1, lookupKey]
      · simp [eraseKey, h1, lookupKey, ih, h2]

theorem eraseKey_eq_self (l : List (K × V)) (k : K)
    (h : lookupKey l k = none) : eraseKey l k = l := by
  induction l with
  | nil => rfl
  | cons a t ih =>
    obtain ⟨a1, a2⟩ := a
    by_cases h1 : a1 = k
    · simp [lookupKey, h1] at h
    · simp only [lookupKey, h1, if_false] at h
      simp [eraseKey, h1, ih h]

theorem lookupKey_isSome_iff (l : List (K × V)) (k : K) :
    (lookupKey l k).isSome = true ↔ k ∈ l.map Prod.fst := by
  induction l with
  | nil => simp [lookupKey]
  | cons a t ih =>
    obtain ⟨a1, a2⟩ := a
    by_cases h1 : a1 = k
    · simp [lookupKey, h1]
    · have h2 : ¬ k = a1 := fun h => h1 h.symm
      simp [lookupKey, h1, h2, ih]

theorem Table.get?_empty (k : K) : (Table.empty : Table K V).get? k = none := rfl

theorem Table.get?_delete_self (t : Table K V) (k : K) : (t.delete k).get? k = none :=
  lookupKey_eraseKey_self t.entries k

theorem Table.get?_delete_ne (t : Table K V) {k k' : K} (h : k' ≠ k) :
    (t.delete k).get? k' = t.get? k' :=
  lookupKey_eraseKey_ne t.entries h

theorem Table.get?_set_self (t : Table K V) (k : K) (v : V) : (t.set k v).get? k = some v := by
  simp [Table.set, Table.get?, lookupKey]

theorem Table.get?_set_ne (t : Table K V) {k k' : K} (v : V) (h : k' ≠ k) :
    (t.set k v).get? k' = t.get? k' := by
  have h2 : ¬ k = k' := fun h3 => h h3.symm
  simp only [Table.set, Table.get?, lookupKey, h2, if_false]
  exact lookupKey_eraseKey_ne t.entries h

theorem Table.delete_eq_self (t : Table K V) (k : K) (h : t.get? k = none) :
    t.delete k = t := by
  obtain ⟨l⟩ := t
  simp only [Table.delete]
  congr 1
  exact eraseKey_eq_self l k h

theorem Table.delete_set (t : Table K V) (k : K) (v : V) (h : t.get? k = none) :
    (t.set k v).delete k = t := by
  have h1 : t.delete k = t := Table.delete_eq_self t k h
  obtain ⟨l⟩ := t
  simp only [Table.delete, Table.mk.injEq] at h1
  simp [Table.set, Table.delete, eraseKey, h1]

theorem Table.len_set (t : Table K V) (k : K) (v : V) (h : t.get? k = none) :
    (t.set k v).len = t.len + 1 := by
  simp [Table.set, Table.len, Table.delete_eq_self t k h]

theorem Table.contains_iff_mem_keys (t : Table K V) (k : K) :
    t.contains k = true ↔ k ∈ t.keys :=
  lookupKey_isSome_iff t.entries k

theorem Table.eq_empty_of_get?_none (t : Table K V) (h : ∀ k, t.get? k = none) :
    t = Table.empty := by
  obtain ⟨l⟩ := t
  cases l with
  | nil => rfl
  | cons a t =>
    have h1 := h a.1
    simp [Table.get?, lookupKey] at h1

theorem Table.contains_set_self (t : Table K V) (k : K) (v : V) :
    (t.set k v).contains k = true := by
  simp [Table.contains, Table.get?_set_self]

theorem Table.contains_set_ne (t : Table K V) {k k' : K} (v : V) (h : k' ≠ k) :
    (t.set k v).contains k' = t.contains k' := by
  simp [Table.contains, Table.get?_set_ne t v h]

theorem Table.contains_delete_self (t : Table K V) (k : K) :
    (t.delete k).contains k = false := by
  simp [Table.contains, Table.get?_delete_self]

theorem Table.contains_delete_ne (t : Table K V) {k k' : K} (h : k' ≠ k) :
    (t.delete k).contains k' = t.contains k' := by
  simp [Table.contains, Table.get?_delete_ne t h]

theorem Table.get?_of_get?_delete (t : Table K V) {k k' : K} {v : V}
    (h : (t.delete k).get? k' = some v) : t.get? k' = some v := by
  by_cases h1 : k' = k
  · subst h1
    rw [Table.get?_delete_self] at h
    exact absurd h (by simp)
  · rwa [Table.get?_delete_ne t h1] at h

end TableFacts

/-! ## Facts about the heap updates -/

section HeapFacts

@[simp] theorem Engine.setSession_sessions (e : Engine) (p : SessionPtr) (s : Session) :
    (e.setSession p s).sessions = e.sessions := rfl

@[simp] theorem Engine.setSession_channels (e : Engine) (p : SessionPtr) (s : Session) :
    (e.setSession p s).channels = e.channels := rfl

@[simp] theorem Engine.setSession_isClosed (e : Engine) (p : SessionPtr) (s : Session) :
    (e.setSession p s).isClosed = e.isClosed := rfl

@[simp] theorem Engine.setSession_lastID (e : Engine) (p : SessionPtr) (s : Session) :
    (e.setSession p s).lastID = e.lastID := rfl

@[simp] theorem Engine.setSession_nextSession (e : Engine) (p : SessionPtr) (s : Session) :
    (e.setSession p s).nextSession = e.nextSession := rfl

@[simp] theorem Engine.setSession_nextChannel (e : Engine) (p : SessionPtr) (s : Session) :
    (e.setSession p s).nextChannel = e.nextChannel := rfl

@[simp] theorem Engine.setSession_trace (e : Engine) (p : SessionPtr) (s : Session) :
    (e.setSession p s).trace = e.trace := rfl

@[simp] theorem Engine.setSession_channelAt (e : Engine) (p : SessionPtr) (s : Session) :
    (e.setSession p s).channelAt = e.channelAt := rfl

theorem Engine.setSession_sessionAt (e : Engine) (p q : SessionPtr) (s : Session) :
    (e.setSession p s).sessionAt q = if q = p then s else e.sessionAt q := by
  simp [Engine.setSession, Function.update_apply]

@[simp] theorem Engine.setSession_sessionAt_self (e : Engine) (p : SessionPtr) (s : Session) :
    (e.setSession p s).sessionAt p = s := by
  simp [Engine.setSession_sessionAt]

@[simp] theorem Engine.setChannel_sessions (e : Engine) (p : ChannelPtr) (c : Channel) :
    (e.setChannel p c).sessions = e.sessions := rfl

@[simp] theorem Engine.setChannel_channels (e : Engine) (p : ChannelPtr) (c : Channel) :
    (e.setChannel p c).channels = e.channels := rfl

@[simp] theorem Engine.setChannel_isClosed (e : Engine) (p : ChannelPtr) (c : Channel) :
    (e.setChannel p c).isClosed = e.isClosed := rfl

@[simp] theorem Engine.setChannel_lastID (e : Engine) (p : ChannelPtr) (c : Channel) :
    (e.setChannel p c).lastID = e.lastID := rfl

@[simp] theorem Engine.setChannel_nextSession (e : Engine) (p : ChannelPtr) (c : Channel) :
    (e.setChannel p c).nextSession = e.nextSession := rfl

@[simp] theorem Engine.setChannel_nextChannel (e : Engine) (p : ChannelPtr) (c : Channel) :
    (e.setChannel p c).nextChannel = e.nextChannel := rfl

@[simp] theorem Engine.setChannel_trace (e : Engine) (p : ChannelPtr) (c : Channel) :
    (e.setChannel p c).trace = e.trace := rfl

@[simp] theorem Engine.setChannel_sessionAt (e : Engine) (p : ChannelPtr) (c : Channel) :
    (e.setChannel p c).sessionAt = e.sessionAt := rfl

theorem Engine.setChannel_channelAt (e : Engine) (p q : ChannelPtr) (c : Channel) :
    (e.setChannel p c).channelAt q = if q = p then c else e.channelAt q := by
  simp [Engine.setChannel, Function.update_apply]

@[simp] theorem Engine.setChannel_channelAt_self (e : Engine) (p : ChannelPtr) (c : Channel) :
    (e.setChannel p c).channelAt p = c := by
  simp [Engine.setChannel_channelAt]

@[simp] theorem Engine.log_sessions (e : Engine) (ev : Event) :
    (e.log ev).sessions = e.sessions := rfl

@[simp] theorem Engine.log_channels (e : Engine) (ev : Event) :
    (e.log ev).channels = e.channels := rfl

@[simp] theorem Engine.log_isClosed (e : Engine) (ev : Event) :
    (e.log ev).isClosed = e.isClosed := rfl

@[simp] theorem Engine.log_lastID (e : Engine) (ev : Event) :
    (e.log ev).lastID = e.lastID := rfl

@[simp] theorem Engine.log_nextSession (e : Engine) (ev : Event) :
    (e.log ev).nextSession = e.nextSession := rfl

@[simp] theorem Engine.log_nextChannel (e : Engine) (ev : Event) :
    (e.log ev).nextChannel = e.nextChannel := rfl

@[simp] theorem Engine.log_sessionAt (e : Engine) (ev : Event) :
    (e.log ev).sessionAt = e.sessionAt := rfl

@[simp] theorem Engine.log_channelAt (e : Engine) (ev : Event) :
    (e.log ev).channelAt = e.channelAt := rfl

@[simp] theorem Engine.log_trace (e : Engine) (ev : Event) :
    (e.log ev).trace = e.trace ++ [ev] := rfl

/-- Two sessions of the engine with the same id are the same session. -/
theorem Engine.WellFormed.ptr_eq_of_id_eq {e : Engine} (hw : e.WellFormed)
    {i j : Int} {s t : SessionPtr} (hs : e.sessions.get? i = some s)
    (ht : e.sessions.get? j = some t) (h : (e.sessionAt s).id = (e.sessionAt t).id) :
    s = t := by
  rw [hw.session_id i s hs, hw.session_id j t ht] at h
  subst h
  rw [hs] at ht
  exact Option.some.inj ht

/-- Two registered channels with the same name are the same channel. -/
theorem Engine.WellFormed.channel_eq_of_name_eq {e : Engine} (hw : e.WellFormed)
    {n m : String} {c d : ChannelPtr} (hc : e.channels.get? n = some c)
    (hd : e.channels.get? m = some d) (h : (e.channelAt c).name = (e.channelAt d).name) :
    c = d := by
  rw [hw.channel_name n c hc, hw.channel_name m d hd] at h
  subst h
  rw [hc] at hd
  exact Option.some.inj hd

/-- Flipping the membership of session `s` in the registered channel `v`, on both
sides at once, keeps bidirectional membership. -/
theorem Engine.Membership.of_toggle {e e' : Engine} (b : Bool) {s : SessionPtr} {ch : String}
    {v : ChannelPtr} (hw : e.WellFormed) (hm : e.Membership) (hs : e.HasSession s)
    (hv : e.channels.get? ch = some v)
    (hsess : e'.sessions = e.sessions) (hchan : e'.channels = e.channels)
    (hid : ∀ p, (e'.sessionAt p).id = (e.sessionAt p).id)
    (hname : ∀ c, (e'.channelAt c).name = (e.channelAt c).name)
    (hmem : ∀ c k, (e'.channelAt c).members.contains k =
      if c = v ∧ k = (e.sessionAt s).id then b else (e.channelAt c).members.contains k)
    (hsub : ∀ p n, (e'.sessionAt p).Subscriptions.contains n =
      if p = s ∧ n = ch then b else (e.sessionAt p).Subscriptions.contains n) :
    e'.Membership := by
  intro i p n c hp hc
  rw [hsess] at hp
  rw [hchan] at hc
  rw [hmem, hsub, hid, hname]
  have hcn : (e.channelAt c).name = n := hw.channel_name n c hc
  have hvn : (e.channelAt v).name = ch := hw.channel_name ch v hv
  have key : (c = v ∧ (e.sessionAt p).id = (e.sessionAt s).id) ↔
      (p = s ∧ (e.channelAt c).name = ch) := by
    constructor
    · rintro ⟨h1, h2⟩
      refine ⟨hw.ptr_eq_of_id_eq hp hs h2, ?_⟩
      rw [h1]
      exact hvn
    · rintro ⟨h1, h2⟩
      refine ⟨hw.channel_eq_of_name_eq hc hv (by rw [h2, hvn]), ?_⟩
      rw [h1]
  by_cases h : c = v ∧ (e.sessionAt p).id = (e.sessionAt s).id
  · rw [if_pos h, if_pos (key.mp h)]
  · rw [if_neg h, if_neg (fun h2 => h (key.mpr h2))]
    exact hm i p n c hp hc

/-- A state that differs from a well-formed one only in members and subscription
sets, and whose members were members before or are the session `s` under its id,
is well formed. -/
theorem Engine.WellFormed.of_members {e e' : Engine} {s : SessionPtr}
    (hw : e.WellFormed) (hs : e.HasSession s)
    (hsess : e'.sessions = e.sessions) (hchan : e'.channels = e.channels)
    (hlast : e'.lastID = e.lastID) (hns : e'.nextSession = e.nextSession)
    (hnc : e'.nextChannel = e.nextChannel)
    (hid : ∀ p, (e'.sessionAt p).id = (e.sessionAt p).id)
    (hname : ∀ c, (e'.channelAt c).name = (e.channelAt c).name)
    (hmem : ∀ c k p, (e'.channelAt c).members.get? k = some p →
      (e.channelAt c).members.get? k = some p ∨ (k = (e.sessionAt s).id ∧ p = s)) :
    e'.WellFormed := by
  refine ⟨?_, ?_, ?_, ?_, ?_, ?_⟩
  · intro n c hc
    rw [hchan] at hc
    rw [hname]
    exact hw.channel_name n c hc
  · intro n c hc
    rw [hchan] at hc
    rw [hnc]
    exact hw.channel_lt n c hc
  · intro i p hp
    rw [hsess] at hp
    rw [hid]
    exact hw.session_id i p hp
  · intro i p hp
    rw [hsess] at hp
    rw [hns]
    exact hw.session_lt i p hp
  · intro i p hp
    rw [hsess] at hp
    rw [hlast]
    exact hw.session_le i p hp
  · intro c k p hp
    rw [hsess]
    rcases hmem c k p hp with h | ⟨h1, h2⟩
    · exact hw.member c k p h
    · rw [h1, h2]
      exact hs

theorem Engine.Frame.frame_refl (e : Engine) : Engine.Frame e e :=
  ⟨rfl, rfl, rfl, rfl, rfl, fun _ => rfl, fun _ => rfl⟩

theorem Engine.Frame.frame_trans {e e' e'' : Engine} (h : Engine.Frame e e')
    (h' : Engine.Frame e' e'') : Engine.Frame e e'' :=
  ⟨h'.sessions.trans h.sessions, h'.channels.trans h.channels, h'.lastID.trans h.lastID,
    h'.nextSession.trans h.nextSession, h'.nextChannel.trans h.nextChannel,
    fun p => (h'.id p).trans (h.id p), fun c => (h'.name c).trans (h.name c)⟩

theorem Engine.Frame.hasSession {e e' : Engine} (h : Engine.Frame e e') {s : SessionPtr}
    (hs : e.HasSession s) : e'.HasSession s := by
  unfold Engine.HasSession at *
  rw [h.sessions, h.id]
  exact hs

theorem Channel.members_some {c : Channel} {m : Table Int SessionPtr}
    (h : c.Sessions = some m) : c.members = m := by
  simp [Channel.members, h]

theorem Channel.members_none {c : Channel} (h : c.Sessions = none) :
    c.members = Table.empty := by
  simp [Channel.members, h]

theorem Channel.members_delete (c : Channel) (k : Int) :
    Channel.members { c with Sessions := c.Sessions.map (fun m => m.delete k) } =
      c.members.delete k := by
  cases h : c.Sessions
  · simp [Channel.members, h]
    rfl
  · simp [Channel.members, h]

/-! ## `Subscribe` and `Unsubscribe` -/

theorem Session.Subscribe_cases (e : Engine) (s : SessionPtr) (ch : String) :
    (e.channels.get? ch = none ∧
      Session.Subscribe e s ch = (e, Outcome.returned (some Error.ErrChannelNotFound))) ∨
    (∃ v, e.channels.get? ch = some v ∧
      (e.channelAt v).members.contains (e.sessionAt s).id = true ∧
      Session.Subscribe e s ch = (e, Outcome.returned (some Error.ErrChannelSubscribed))) ∨
    (∃ v, e.channels.get? ch = some v ∧
      (e.channelAt v).members.contains (e.sessionAt s).id = false ∧
      (e.channelAt v).Sessions = none ∧
      Session.Subscribe e s ch = (e, Outcome.panicked)) ∨
    (∃ v m, e.channels.get? ch = some v ∧
      (e.channelAt v).members.contains (e.sessionAt s).id = false ∧
      (e.channelAt v).Sessions = some m ∧
      Session.Subscribe e s ch = (Session.subscribed e s ch v m, Outcome.returned none)) := by
  unfold Session.Subscribe
  cases hv : e.channels.get? ch with
  | none => exact Or.inl ⟨rfl, rfl⟩
  | some v =>
    right
    by_cases hc : (e.channelAt v).members.contains (e.sessionAt s).id = true
    · exact Or.inl ⟨v, rfl, hc, by simp [hc]⟩
    · right
      have hc' : (e.channelAt v).members.contains (e.sessionAt s).id = false := by
        simpa using hc
      cases hm : (e.channelAt v).Sessions with
      | none => exact Or.inl ⟨v, rfl, hc', hm, by simp [hc', hm]⟩
      | some m => exact Or.inr ⟨v, m, rfl, hc', hm, by simp [hc', hm, Session.subscribed]⟩

theorem Session.Unsubscribe_cases (e : Engine) (s : SessionPtr) (ch : String) :
    (e.channels.get? ch = none ∧
      Session.Unsubscribe e s ch = (e, some Error.ErrChannelNotFound)) ∨
    (∃ v, e.channels.get? ch = some v ∧
      (e.channelAt v).members.contains (e.sessionAt s).id = false ∧
      Session.Unsubscribe e s ch = (e, some Error.ErrChannelNotSubscribed)) ∨
    (∃ v, e.channels.get? ch = some v ∧
      (e.channelAt v).members.contains (e.sessionAt s).id = true ∧
      Session.Unsubscribe e s ch = (Session.unsubscribed e s ch v, none)) := by
  unfold Session.Unsubscribe
  cases hv : e.channels.get? ch with
  | none => exact Or.inl ⟨rfl, rfl⟩
  | some v =>
    right
    by_cases hc : (e.channelAt v).members.contains (e.sessionAt s).id = true
    · exact Or.inr ⟨v, rfl, hc, by simp [hc, Session.unsubscribed]⟩
    · have hc' : (e.channelAt v).members.contains (e.sessionAt s).id = false := by
        simpa using hc
      exact Or.inl ⟨v, rfl, hc', by simp [hc']⟩

theorem Session.subscribed_frame (e : Engine) (s : SessionPtr) (ch : String) (v : ChannelPtr)
    (m : Table Int SessionPtr) : Engine.Frame e (Session.subscribed e s ch v m) := by
  refine ⟨rfl, rfl, rfl, rfl, rfl, ?_, ?_⟩
  · intro p
    by_cases h : p = s <;> simp [Session.subscribed, Engine.setSession_sessionAt, h]
  · intro c
    by_cases h : c = v <;> simp [Session.subscribed, Engine.setChannel_channelAt, h]

theorem Session.unsubscribed_frame (e : Engine) (s : SessionPtr) (ch : String) (v : ChannelPtr) :
    Engine.Frame e (Session.unsubscribed e s ch v) := by
  refine ⟨rfl, rfl, rfl, rfl, rfl, ?_, ?_⟩
  · intro p
    by_cases h : p = s <;> simp [Session.unsubscribed, Engine.setSession_sessionAt, h]
  · intro c
    by_cases h : c = v <;> simp [Session.unsubscribed, Engine.setChannel_channelAt, h]

theorem Session.subscribed_members (e : Engine) (s : SessionPtr) (ch : String)
    (v : ChannelPtr) (m : Table Int SessionPtr) (hm : (e.channelAt v).Sessions = some m)
    (c : ChannelPtr) :
    ((Session.subscribed e s ch v m).channelAt c).members =
      if c = v then (e.channelAt v).members.set (e.sessionAt s).id s
      else (e.channelAt c).members := by
  by_cases h : c = v
  · simp [Session.subscribed, Engine.setChannel_channelAt, h, Channel.members, hm]
  · simp [Session.subscribed, Engine.setChannel_channelAt, h]

theorem Session.subscribed_subscriptions (e : Engine) (s : SessionPtr) (ch : String)
    (v : ChannelPtr) (m : Table Int SessionPtr) (p : SessionPtr) :
    ((Session.subscribed e s ch v m).sessionAt p).Subscriptions =
      if p = s then (e.sessionAt s).Subscriptions.set ch v
      else (e.sessionAt p).Subscriptions := by
  by_cases h : p = s <;> simp [Session.subscribed, Engine.setSession_sessionAt, h]

theorem Session.unsubscribed_members (e : Engine) (s : SessionPtr) (ch : String)
    (v : ChannelPtr) (c : ChannelPtr) :
    ((Session.unsubscribed e s ch v).channelAt c).members =
      if c = v then (e.channelAt v).members.delete (e.sessionAt s).id
      else (e.channelAt c).members := by
  by_cases h : c = v
  · simp [Session.unsubscribed, Engine.setChannel_channelAt, h, Channel.members_delete]
  · simp [Session.unsubscribed, Engine.setChannel_channelAt, h]

theorem Session.unsubscribed_subscriptions (e : Engine) (s : SessionPtr) (ch : String)
    (v : ChannelPtr) (p : SessionPtr) :
    ((Session.unsubscribed e s ch v).sessionAt p).Subscriptions =
      if p = s then (e.sessionAt s).Subscriptions.delete ch
      else (e.sessionAt p).Subscriptions := by
  by_cases h : p = s <;> simp [Session.unsubscribed, Engine.setSession_sessionAt, h]

theorem Session.Subscribe_frame (e : Engine) (s : SessionPtr) (ch : String) :
    Engine.Frame e (Session.Subscribe e s ch).1 := by
  rcases Session.Subscribe_cases e s ch with ⟨_, h⟩ | ⟨v, _, _, h⟩ | ⟨v, _, _, _, h⟩ |
    ⟨v, m, _, _, _, h⟩
  · rw [h]; exact Engine.Frame.frame_refl e
  · rw [h]; exact Engine.Frame.frame_refl e
  · rw [h]; exact Engine.Frame.frame_refl e
  · rw [h]; exact Session.subscribed_frame e s ch v m

theorem Session.Unsubscribe_frame (e : Engine) (s : SessionPtr) (ch : String) :
    Engine.Frame e (Session.Unsubscribe e s ch).1 := by
  rcases Session.Unsubscribe_cases e s ch with ⟨_, h⟩ | ⟨v, _, _, h⟩ | ⟨v, _, _, h⟩
  · rw [h]; exact Engine.Frame.frame_refl e
  · rw [h]; exact Engine.Frame.frame_refl e
  · rw [h]; exact Session.unsubscribed_frame e s ch v

theorem Session.subscribed_wellFormed {e : Engine} {s : SessionPtr} (ch : String)
    {v : ChannelPtr} {m : Table Int SessionPtr} (hw : e.WellFormed) (hs : e.HasSession s)
    (hm : (e.channelAt v).Sessions = some m) :
    (Session.subscribed e s ch v m).WellFormed := by
  have hf := Session.subscribed_frame e s ch v m
  refine Engine.WellFormed.of_members hw hs hf.sessions hf.channels hf.lastID hf.nextSession
    hf.nextChannel hf.id hf.name ?_
  intro c k p hp
  rw [Session.subscribed_members e s ch v m hm] at hp
  by_cases hc : c = v
  · rw [if_pos hc] at hp
    by_cases hk : k = (e.sessionAt s).id
    · rw [hk, Table.get?_set_self] at hp
      exact Or.inr ⟨hk, (Option.some.inj hp).symm⟩
    · rw [Table.get?_set_ne _ _ hk] at hp
      rw [hc]
      exact Or.inl hp
  · rw [if_neg hc] at hp
    exact Or.inl hp

theorem Session.unsubscribed_wellFormed {e : Engine} {s : SessionPtr} (ch : String)
    (v : ChannelPtr) (hw : e.WellFormed) (hs : e.HasSession s) :
    (Session.unsubscribed e s ch v).WellFormed := by
  have hf := Session.unsubscribed_frame e s ch v
  refine Engine.WellFormed.of_members hw hs hf.sessions hf.channels hf.lastID hf.nextSession
    hf.nextChannel hf.id hf.name ?_
  intro c k p hp
  rw [Session.unsubscribed_members e s ch v] at hp
  by_cases hc : c = v
  · rw [if_pos hc] at hp
    rw [hc]
    exact Or.inl (Table.get?_of_get?_delete _ hp)
  · rw [if_neg hc] at hp
    exact Or.inl hp

theorem Session.subscribed_membership {e : Engine} {s : SessionPtr} {ch : String}
    {v : ChannelPtr} {m : Table Int SessionPtr} (hw : e.WellFormed) (hmem : e.Membership)
    (hs : e.HasSession s) (hv : e.channels.get? ch = some v)
    (hm : (e.channelAt v).Sessions = some m) :
    (Session.subscribed e s ch v m).Membership := by
  have hf := Session.subscribed_frame e s ch v m
  refine Engine.Membership.of_toggle true hw hmem hs hv hf.sessions hf.channels hf.id hf.name
    ?_ ?_
  · intro c k
    rw [Session.subscribed_members e s ch v m hm]
    by_cases hc : c = v
    · by_cases hk : k = (e.sessionAt s).id
      · simp [hc, hk, Table.contains_set_self]
      · simp [hc, hk, Table.contains_set_ne _ _ hk]
    · simp [hc]
  · intro p n
    rw [Session.subscribed_subscriptions]
    by_cases hp : p = s
    · by_cases hn : n = ch
      · simp [hp, hn, Table.contains_set_self]
      · simp [hp, hn, Table.contains_set_ne _ _ hn]
    · simp [hp]

theorem Session.unsubscribed_membership {e : Engine} {s : SessionPtr} {ch : String}
    {v : ChannelPtr} (hw : e.WellFormed) (hmem : e.Membership)
    (hs : e.HasSession s) (hv : e.channels.get? ch = some v) :
    (Session.unsubscribed e s ch v).Membership := by
  have hf := Session.unsubscribed_frame e s ch v
  refine Engine.Membership.of_toggle false hw hmem hs hv hf.sessions hf.channels hf.id hf.name
    ?_ ?_
  · intro c k
    rw [Session.unsubscribed_members e s ch v]
    by_cases hc : c = v
    · by_cases hk : k = (e.sessionAt s).id
      · simp [hc, hk, Table.contains_delete_self]
      · simp [hc, hk, Table.contains_delete_ne _ hk]
    · simp [hc]
  · intro p n
    rw [Session.unsubscribed_subscriptions]
    by_cases hp : p = s
    · by_cases hn : n = ch
      · simp [hp, hn, Table.contains_delete_self]
      · simp [hp, hn, Table.contains_delete_ne _ hn]
    · simp [hp]

theorem Session.Subscribe_wellFormed {e : Engine} {s : SessionPtr} (ch : String)
    (hw : e.WellFormed) (hs : e.HasSession s) : (Session.Subscribe e s ch).1.WellFormed := by
  rcases Session.Subscribe_cases e s ch with ⟨_, h⟩ | ⟨v, _, _, h⟩ | ⟨v, _, _, _, h⟩ |
    ⟨v, m, _, _, hm, h⟩
  · rw [h]; exact hw
  · rw [h]; exact hw
  · rw [h]; exact hw
  · rw [h]; exact Session.subscribed_wellFormed ch hw hs hm

theorem Session.Subscribe_membership {e : Engine} {s : SessionPtr} (ch : String)
    (hw : e.WellFormed) (hmem : e.Membership) (hs : e.HasSession s) :
    (Session.Subscribe e s ch).1.Membership := by
  rcases Session.Subscribe_cases e s ch with ⟨_, h⟩ | ⟨v, _, _, h⟩ | ⟨v, _, _, _, h⟩ |
    ⟨v, m, hv, _, hm, h⟩
  · rw [h]; exact hmem
  · rw [h]; exact hmem
  · rw [h]; exact hmem
  · rw [h]; exact Session.subscribed_membership hw hmem hs hv hm

theorem Session.Unsubscribe_wellFormed {e : Engine} {s : SessionPtr} (ch : String)
    (hw : e.WellFormed) (hs : e.HasSession s) : (Session.Unsubscribe e s ch).1.WellFormed := by
  rcases Session.Unsubscribe_cases e s ch with ⟨_, h⟩ | ⟨v, _, _, h⟩ | ⟨v, _, _, h⟩
  · rw [h]; exact hw
  · rw [h]; exact hw
  · rw [h]; exact Session.unsubscribed_wellFormed ch v hw hs

theorem Session.Unsubscribe_membership {e : Engine} {s : SessionPtr} (ch : String)
    (hw : e.WellFormed) (hmem : e.Membership) (hs : e.HasSession s) :
    (Session.Unsubscribe e s ch).1.Membership := by
  rcases Session.Unsubscribe_cases e s ch with ⟨_, h⟩ | ⟨v, _, _, h⟩ | ⟨v, hv, _, h⟩
  · rw [h]; exact hmem
  · rw [h]; exact hmem
  · rw [h]; exact Session.unsubscribed_membership hw hmem hs hv

/-! ## Writes and `Session.Close` leave the links alone -/

theorem Engine.SameHeap.sameHeap_refl (e : Engine) : Engine.SameHeap e e :=
  ⟨rfl, rfl, rfl, rfl, rfl, rfl, rfl, rfl, rfl⟩

theorem Engine.SameHeap.sameHeap_trans {e e' e'' : Engine} (h : Engine.SameHeap e e')
    (h' : Engine.SameHeap e' e'') : Engine.SameHeap e e'' :=
  ⟨h'.sessions.trans h.sessions, h'.channels.trans h.channels, h'.config.trans h.config,
    h'.isClosed.trans h.isClosed, h'.lastID.trans h.lastID, h'.sessionAt.trans h.sessionAt,
    h'.channelAt.trans h.channelAt, h'.nextSession.trans h.nextSession,
    h'.nextChannel.trans h.nextChannel⟩

theorem Engine.SameHeap.sameLinks {e e' : Engine} (h : Engine.SameHeap e e') :
    Engine.SameLinks e e' :=
  ⟨⟨h.sessions, h.channels, h.lastID, h.nextSession, h.nextChannel,
      fun p => by rw [h.sessionAt], fun c => by rw [h.channelAt]⟩,
    fun c => by rw [h.channelAt], fun p => by rw [h.sessionAt]⟩

theorem Engine.SameLinks.sameLinks_refl (e : Engine) : Engine.SameLinks e e :=
  ⟨Engine.Frame.frame_refl e, fun _ => rfl, fun _ => rfl⟩

theorem Engine.SameLinks.sameLinks_trans {e e' e'' : Engine} (h : Engine.SameLinks e e')
    (h' : Engine.SameLinks e' e'') : Engine.SameLinks e e'' :=
  ⟨h.frame.frame_trans h'.frame, fun c => (h'.members c).trans (h.members c),
    fun p => (h'.subscriptions p).trans (h.subscriptions p)⟩

theorem Engine.SameLinks.wellFormed {e e' : Engine} (h : Engine.SameLinks e e')
    (hw : e.WellFormed) : e'.WellFormed := by
  refine ⟨?_, ?_, ?_, ?_, ?_, ?_⟩
  · intro n c hc
    rw [h.frame.channels] at hc
    rw [h.frame.name]
    exact hw.channel_name n c hc
  · intro n c hc
    rw [h.frame.channels] at hc
    rw [h.frame.nextChannel]
    exact hw.channel_lt n c hc
  · intro i p hp
    rw [h.frame.sessions] at hp
    rw [h.frame.id]
    exact hw.session_id i p hp
  · intro i p hp
    rw [h.frame.sessions] at hp
    rw [h.frame.nextSession]
    exact hw.session_lt i p hp
  · intro i p hp
    rw [h.frame.sessions] at hp
    rw [h.frame.lastID]
    exact hw.session_le i p hp
  · intro c k p hp
    rw [h.members] at hp
    rw [h.frame.sessions]
    exact hw.member c k p hp

theorem Engine.SameLinks.membership {e e' : Engine} (h : Engine.SameLinks e e')
    (hm : e.Membership) : e'.Membership := by
  intro i p n c hp hc
  rw [h.frame.sessions] at hp
  rw [h.frame.channels] at hc
  rw [h.members, h.subscriptions, h.frame.id, h.frame.name]
  exact hm i p n c hp hc

theorem Session.writePayload_sameHeap (net : Transport) (e : Engine) (s : SessionPtr)
    (p : Payload) : Engine.SameHeap e (Session.writePayload net e s p).1 := by
  simp only [Session.writePayload]
  split <;> exact ⟨rfl, rfl, rfl, rfl, rfl, rfl, rfl, rfl, rfl⟩

theorem Session.Close_sameLinks (net : Transport) (e : Engine) (s : SessionPtr) :
    Engine.SameLinks e (Session.Close net e s).1 := by
  unfold Session.Close
  by_cases h : (e.sessionAt s).isClosed = true
  · simp only [h, if_true]
    exact Engine.SameLinks.sameLinks_refl e
  · simp only [h]
    refine ⟨⟨rfl, rfl, rfl, rfl, rfl, ?_, fun _ => rfl⟩, fun _ => rfl, ?_⟩
    · intro p
      by_cases hp : p = s <;> simp [Engine.setSession_sessionAt, hp]
    · intro p
      by_cases hp : p = s <;> simp [Engine.setSession_sessionAt, hp]

/-! ## Loops -/

theorem rangeLoop_induct {σ K V : Type} [DecidableEq K] (live : σ → Table K V)
    (body : σ → K → V → σ) (P : σ → Prop)
    (hstep : ∀ st k v, P st → (live st).get? k = some v → P (body st k v)) :
    ∀ (ks : List K) (st : σ), P st → P (rangeLoop live body ks st) := by
  intro ks
  induction ks with
  | nil => intro st h; exact h
  | cons k ks ih =>
    intro st h
    unfold rangeLoop
    cases hv : (live st).get? k with
    | none => exact ih st h
    | some v => exact ih _ (hstep st k v h hv)

theorem Engine.WellFormed.hasSession_of_member {e : Engine} (hw : e.WellFormed)
    {c : ChannelPtr} {k : Int} {v : SessionPtr}
    (h : (e.channelAt c).members.get? k = some v) : e.HasSession v := by
  have h1 := hw.member c k v h
  unfold Engine.HasSession
  rw [hw.session_id k v h1]
  exact h1

theorem Session.UnsubscribeAll_consistent {e : Engine} {s : SessionPtr}
    (hc : e.Consistent) (hs : e.HasSession s) :
    (Session.UnsubscribeAll e s).Consistent ∧ (Session.UnsubscribeAll e s).HasSession s := by
  unfold Session.UnsubscribeAll
  refine rangeLoop_induct (fun st : Engine => (st.sessionAt s).Subscriptions)
    (fun st k _ => (Session.Unsubscribe st s k).1)
    (fun st => st.Consistent ∧ st.HasSession s) ?_ _ e ⟨hc, hs⟩
  intro st k v h _
  exact ⟨⟨Session.Unsubscribe_wellFormed k h.1.1 h.2,
    Session.Unsubscribe_membership k h.1.1 h.1.2 h.2⟩,
    (Session.Unsubscribe_frame st s k).hasSession h.2⟩

theorem Engine.setChannel_closed_sameLinks (e : Engine) (c : ChannelPtr) :
    Engine.SameLinks e (e.setChannel c { e.channelAt c with isClosed := true }) := by
  refine ⟨⟨rfl, rfl, rfl, rfl, rfl, fun _ => rfl, ?_⟩, ?_, fun _ => rfl⟩
  · intro d
    by_cases h : d = c <;> simp [Engine.setChannel_channelAt, h]
  · intro d
    by_cases h : d = c <;> simp [Engine.setChannel_channelAt, h, Channel.members]

theorem Engine.SameLinks.consistent {e e' : Engine} (h : Engine.SameLinks e e')
    (hc : e.Consistent) : e'.Consistent :=
  ⟨h.wellFormed hc.1, h.membership hc.2⟩

theorem Channel.Close_consistent {e : Engine} (c : ChannelPtr) (hc : e.Consistent) :
    (Channel.Close e c).1.Consistent := by
  unfold Channel.Close
  by_cases h : (e.channelAt c).isClosed = true
  · simp only [h, if_true]
    exact hc
  · simp only [h]
    refine rangeLoop_induct (fun st : Engine => (st.channelAt c).members)
      (fun st _ v => (Session.Unsubscribe st v (st.channelAt c).name).1)
      (fun st => st.Consistent) ?_ _ _
      ((Engine.setChannel_closed_sameLinks e c).consistent hc)
    intro st k v hst hv
    have hs := hst.1.hasSession_of_member hv
    exact ⟨Session.Unsubscribe_wellFormed _ hst.1 hs,
      Session.Unsubscribe_membership _ hst.1 hst.2 hs⟩

theorem Channel.closeWithPayload_consistent (net : Transport) {e : Engine} (c : ChannelPtr)
    (p : Payload) (hc : e.Consistent) : (Channel.closeWithPayload net e c p).1.Consistent := by
  unfold Channel.closeWithPayload
  by_cases h : (e.channelAt c).isClosed = true
  · simp only [h, if_true]
    exact hc
  · simp only [h]
    refine rangeLoop_induct (fun st : Engine => (st.channelAt c).members)
      (fun st _ v => Channel.closeStep net c p st v)
      (fun st => st.Consistent) ?_ _ _
      ((Engine.setChannel_closed_sameLinks e c).consistent hc)
    intro st k v hst hv
    have hs := hst.1.hasSession_of_member hv
    unfold Channel.closeStep
    exact (Session.writePayload_sameHeap net _ v p).sameLinks.consistent
      ⟨Session.Unsubscribe_wellFormed _ hst.1 hs,
        Session.Unsubscribe_membership _ hst.1 hst.2 hs⟩

/-! ## Construction -/

theorem NewServer_consistent (conf : EngineConfig) : (NewServer conf).Consistent := by
  refine ⟨⟨?_, ?_, ?_, ?_, ?_, ?_⟩, ?_⟩
  · intro n c h
    simp [NewServer, Table.get?, Table.empty, lookupKey] at h
  · intro n c h
    simp [NewServer, Table.get?, Table.empty, lookupKey] at h
  · intro n c h
    simp [NewServer, Table.get?, Table.empty, lookupKey] at h
  · intro n c h
    simp [NewServer, Table.get?, Table.empty, lookupKey] at h
  · intro n c h
    simp [NewServer, Table.get?, Table.empty, lookupKey] at h
  · intro c k s h
    simp [NewServer, Channel.zero, Channel.members, Table.get?, Table.empty, lookupKey] at h
  · intro i s n c h
    simp [NewServer, Table.get?, Table.empty, lookupKey] at h

theorem Engine.NewSession_sessions_get? (e : Engine) (conn : Conn) (i : Int) :
    (e.NewSession conn).1.sessions.get? i =
      if i = e.lastID + 1 then some e.nextSession else e.sessions.get? i := by
  by_cases h : i = e.lastID + 1
  · simp [Engine.NewSession, h, Table.get?_set_self]
  · simp [Engine.NewSession, h, Table.get?_set_ne _ _ h]

theorem Engine.NewSession_sessionAt (e : Engine) (conn : Conn) (q : SessionPtr) :
    (e.NewSession conn).1.sessionAt q =
      if q = e.nextSession then
        { id := e.lastID + 1, store := Table.empty, Subscriptions := Table.empty,
          isClosed := false, conn := conn }
      else e.sessionAt q := by
  simp [Engine.NewSession, Function.update_apply]

theorem Engine.NewSession_wellFormed {e : Engine} (conn : Conn) (hw : e.WellFormed) :
    (e.NewSession conn).1.WellFormed := by
  have old : ∀ i q, i ≠ e.lastID + 1 → e.sessions.get? i = some q →
      (e.NewSession conn).1.sessionAt q = e.sessionAt q := by
    intro i q _ hq
    rw [Engine.NewSession_sessionAt, if_neg (Nat.ne_of_lt (hw.session_lt i q hq))]
  refine ⟨?_, ?_, ?_, ?_, ?_, ?_⟩
  · intro n c hc
    exact hw.channel_name n c hc
  · intro n c hc
    exact hw.channel_lt n c hc
  · intro i q hq
    rw [Engine.NewSession_sessions_get?] at hq
    by_cases h : i = e.lastID + 1
    · rw [if_pos h] at hq
      rw [← Option.some.inj hq, Engine.NewSession_sessionAt, if_pos rfl, h]
    · rw [if_neg h] at hq
      rw [old i q h hq]
      exact hw.session_id i q hq
  · intro i q hq
    rw [Engine.NewSession_sessions_get?] at hq
    by_cases h : i = e.lastID + 1
    · rw [if_pos h] at hq
      rw [← Option.some.inj hq]
      exact Nat.lt_succ_self _
    · rw [if_neg h] at hq
      exact Nat.lt_succ_of_lt (hw.session_lt i q hq)
  · intro i q hq
    rw [Engine.NewSession_sessions_get?] at hq
    by_cases h : i = e.lastID + 1
    · rw [h]
      exact le_refl _
    · rw [if_neg h] at hq
      have := hw.session_le i q hq
      show i ≤ e.lastID + 1
      omega
  · intro c k q hq
    have h1 : e.sessions.get? k = some q := hw.member c k q hq
    have h2 := hw.session_le k q h1
    rw [Engine.NewSession_sessions_get?, if_neg (by omega)]
    exact h1

theorem Engine.NewSession_membership {e : Engine} (conn : Conn) (hc : e.Consistent) :
    (e.NewSession conn).1.Membership := by
  obtain ⟨hw, hm⟩ := hc
  intro i q n c hq hc
  rw [Engine.NewSession_sessions_get?] at hq
  have hc' : e.channels.get? n = some c := hc
  show (e.channelAt c).members.contains ((e.NewSession conn).1.sessionAt q).id =
    ((e.NewSession conn).1.sessionAt q).Subscriptions.contains (e.channelAt c).name
  by_cases h : i = e.lastID + 1
  · rw [if_pos h] at hq
    rw [← Option.some.inj hq, Engine.NewSession_sessionAt, if_pos rfl]
    show (e.channelAt c).members.contains (e.lastID + 1) = false
    cases hg : (e.channelAt c).members.get? (e.lastID + 1) with
    | none => simp [Table.contains, hg]
    | some v =>
      have := hw.session_le _ _ (hw.member c _ v hg)
      omega
  · rw [if_neg h] at hq
    rw [Engine.NewSession_sessionAt, if_neg (Nat.ne_of_lt (hw.session_lt i q hq))]
    exact hm i q n c hq hc'

theorem Engine.NewChannel_channels_get? (e : Engine) (name : String)
    (conf : Option ChannelConfig) (n : String) :
    (e.NewChannel name conf).1.channels.get? n =
      if n = name then some e.nextChannel else e.channels.get? n := by
  by_cases h : n = name
  · simp [Engine.NewChannel, h, Table.get?_set_self]
  · simp [Engine.NewChannel, h, Table.get?_set_ne _ _ h]

theorem Engine.NewChannel_channelAt (e : Engine) (name : String)
    (conf : Option ChannelConfig) (c : ChannelPtr) :
    (e.NewChannel name conf).1.channelAt c =
      if c = e.nextChannel then
        { name := name, Sessions := none, isClosed := false, config := conf }
      else e.channelAt c := by
  simp [Engine.NewChannel, Function.update_apply]

theorem Engine.NewChannel_wellFormed {e : Engine} (name : String)
    (conf : Option ChannelConfig) (hw : e.WellFormed) :
    (e.NewChannel name conf).1.WellFormed := by
  refine ⟨?_, ?_, ?_, ?_, ?_, ?_⟩
  · intro n c hc
    rw [Engine.NewChannel_channels_get?] at hc
    by_cases h : n = name
    · rw [if_pos h] at hc
      rw [← Option.some.inj hc, Engine.NewChannel_channelAt, if_pos rfl, h]
    · rw [if_neg h] at hc
      rw [Engine.NewChannel_channelAt, if_neg (Nat.ne_of_lt (hw.channel_lt n c hc))]
      exact hw.channel_name n c hc
  · intro n c hc
    rw [Engine.NewChannel_channels_get?] at hc
    by_cases h : n = name
    · rw [if_pos h] at hc
      rw [← Option.some.inj hc]
      exact Nat.lt_succ_self _
    · rw [if_neg h] at hc
      exact Nat.lt_succ_of_lt (hw.channel_lt n c hc)
  · intro i q hq
    exact hw.session_id i q hq
  · intro i q hq
    exact hw.session_lt i q hq
  · intro i q hq
    exact hw.session_le i q hq
  · intro c k q hq
    rw [Engine.NewChannel_channelAt] at hq
    by_cases h : c = e.nextChannel
    · rw [if_pos h] at hq
      simp [Channel.members, Table.get?, Table.empty, lookupKey] at hq
    · rw [if_neg h] at hq
      exact hw.member c k q hq

theorem Engine.NewChannel_membership {e : Engine} (name : String)
    (conf : Option ChannelConfig) (hc : e.Consistent)
    (hfree : ∀ i s, e.sessions.get? i = some s →
      (e.sessionAt s).Subscriptions.contains name = false) :
    (e.NewChannel name conf).1.Membership := by
  obtain ⟨hw, hm⟩ := hc
  intro i q n c hq hc
  have hq' : e.sessions.get? i = some q := hq
  rw [Engine.NewChannel_channels_get?] at hc
  show ((e.NewChannel name conf).1.channelAt c).members.contains (e.sessionAt q).id =
    (e.sessionAt q).Subscriptions.contains ((e.NewChannel name conf).1.channelAt c).name
  by_cases h : n = name
  · rw [if_pos h] at hc
    rw [← Option.some.inj hc, Engine.NewChannel_channelAt, if_pos rfl]
    show false = (e.sessionAt q).Subscriptions.contains name
    rw [hfree i q hq']
  · rw [if_neg h] at hc
    rw [Engine.NewChannel_channelAt, if_neg (Nat.ne_of_lt (hw.channel_lt n c hc))]
    exact hm i q n c hq' hc

theorem Channel.makeSessions_consistent {e : Engine} {c : ChannelPtr} (hc : e.Consistent)
    (hnil : (e.channelAt c).Sessions = none) : (Channel.makeSessions e c).Consistent := by
  refine Engine.SameLinks.consistent ?_ hc
  refine ⟨⟨rfl, rfl, rfl, rfl, rfl, fun _ => rfl, ?_⟩, ?_, fun _ => rfl⟩
  · intro d
    by_cases h : d = c <;> simp [Channel.makeSessions, Engine.setChannel_channelAt, h]
  · intro d
    by_cases h : d = c
    · simp [Channel.makeSessions, Engine.setChannel_channelAt, h, Channel.members, hnil]
    · simp [Channel.makeSessions, Engine.setChannel_channelAt, h]

/-! ## The example states -/

theorem Example.fresh_consistent : Example.fresh.Consistent := by
  have h := NewServer_consistent DefaultConfig
  refine ⟨Engine.NewChannel_wellFormed "room" none h.1,
    Engine.NewChannel_membership "room" none h ?_⟩
  intro i s hs
  simp [NewServer, Table.get?, Table.empty, lookupKey] at hs

theorem Example.lobby_consistent : Example.lobby.Consistent :=
  ⟨Engine.NewSession_wellFormed 7 Example.fresh_consistent.1,
    Engine.NewSession_membership 7 Example.fresh_consistent⟩

theorem Example.ready_consistent : Example.ready.Consistent := by
  have h := Channel.makeSessions_consistent (c := 0) Example.fresh_consistent rfl
  exact ⟨Engine.NewSession_wellFormed 7 h.1, Engine.NewSession_membership 7 h⟩

theorem Example.joined_consistent : Example.joined.Consistent :=
  ⟨Session.Subscribe_wellFormed "room" Example.ready_consistent.1 (by decide),
    Session.Subscribe_membership "room" Example.ready_consistent.1 Example.ready_consistent.2
      (by decide)⟩


/-! ## The eviction loop of `Channel.Close` -/

theorem Session.Unsubscribe_evicted {c : ChannelPtr} {name : String} {st : Engine} {k : Int}
    {v : SessionPtr} (hc : Channel.Closing c name st)
    (hv : (st.channelAt c).members.get? k = some v) :
    Session.Unsubscribe st v name = (Session.unsubscribed st v name c, none) ∧
      Channel.Evicted c name k v st (Session.unsubscribed st v name c) := by
  have hid : (st.sessionAt v).id = k := hc.keyed k v hv
  have hcont : (st.channelAt c).members.contains (st.sessionAt v).id = true := by
    simp [Table.contains, hid, hv]
  have heq : Session.Unsubscribe st v name = (Session.unsubscribed st v name c, none) := by
    simp [Session.Unsubscribe, hc.registered, hcont, Session.unsubscribed]
  have hf := Session.unsubscribed_frame st v name c
  have hmem : ((Session.unsubscribed st v name c).channelAt c).members =
      (st.channelAt c).members.delete k := by
    rw [Session.unsubscribed_members, if_pos rfl, hid]
  refine ⟨heq, ⟨⟨?_, ?_, ?_⟩, ?_, hmem, ?_⟩⟩
  · rw [hf.channels]
    exact hc.registered
  · rw [hf.name]
    exact hc.name_eq
  · intro k' v' h
    rw [hmem] at h
    rw [hf.id]
    exact hc.keyed k' v' (Table.get?_of_get?_delete _ h)
  · simp [Session.unsubscribed, Engine.setChannel_channelAt]
  · intro p
    exact Session.unsubscribed_subscriptions st v name c p

theorem Channel.Evicted.of_sameHeap {c : ChannelPtr} {name : String} {k : Int}
    {v : SessionPtr} {st st' st'' : Engine} (h : Channel.Evicted c name k v st st')
    (hs : Engine.SameHeap st' st'') : Channel.Evicted c name k v st st'' := by
  obtain ⟨⟨h1, h2, h3⟩, h4, h5, h6⟩ := h
  refine ⟨⟨?_, ?_, ?_⟩, ?_, ?_, ?_⟩
  · rw [hs.channels]; exact h1
  · rw [hs.channelAt]; exact h2
  · rw [hs.channelAt, hs.sessionAt]; exact h3
  · rw [hs.channelAt]; exact h4
  · rw [hs.channelAt]; exact h5
  · rw [hs.sessionAt]; exact h6

theorem Channel.evict_loop (c : ChannelPtr) (name : String)
    (body : Engine → Int → SessionPtr → Engine)
    (hbody : ∀ st k v, Channel.Closing c name st →
      (st.channelAt c).members.get? k = some v → Channel.Evicted c name k v st (body st k v)) :
    ∀ (ks : List Int) (st : Engine), Channel.Closing c name st →
      Channel.Closing c name (rangeLoop (fun st => (st.channelAt c).members) body ks st) ∧
      ((rangeLoop (fun st => (st.channelAt c).members) body ks st).channelAt c).isClosed =
        (st.channelAt c).isClosed ∧
      (∀ k v, ((rangeLoop (fun st => (st.channelAt c).members) body ks st).channelAt
          c).members.get? k = some v → (st.channelAt c).members.get? k = some v) ∧
      (∀ p n, ((rangeLoop (fun st => (st.channelAt c).members) body ks st).sessionAt
          p).Subscriptions.contains n = true → (st.sessionAt p).Subscriptions.contains n = true) ∧
      (∀ k ∈ ks, ((rangeLoop (fun st => (st.channelAt c).members) body ks st).channelAt
          c).members.get? k = none) ∧
      (∀ k ∈ ks, ∀ v, (st.channelAt c).members.get? k = some v →
        ((rangeLoop (fun st => (st.channelAt c).members) body ks st).sessionAt
          v).Subscriptions.contains name = false) := by
  intro ks
  induction ks with
  | nil =>
    intro st h
    refine ⟨h, rfl, fun _ _ h => h, fun _ _ h => h, ?_, ?_⟩
    · intro k hk
      simp at hk
    · intro k hk
      simp at hk
  | cons k ks ih =>
    intro st h
    unfold rangeLoop
    cases hv : (st.channelAt c).members.get? k with
    | none =>
      simp only []
      obtain ⟨i1, i2, i3, i4, i5, i6⟩ := ih st h
      refine ⟨i1, i2, i3, i4, ?_, ?_⟩
      · intro k' hk'
        rcases List.mem_cons.mp hk' with hk | hk
        · cases hfin : ((rangeLoop (fun st => (st.channelAt c).members) body ks st).channelAt
            c).members.get? k' with
          | none => rfl
          | some w =>
            have := i3 k' w hfin
            rw [hk, hv] at this
            exact absurd this (by simp)
        · exact i5 k' hk
      · intro k' hk' w hw
        rcases List.mem_cons.mp hk' with hk | hk
        · rw [hk, hv] at hw
          exact absurd hw (by simp)
        · exact i6 k' hk w hw
    | some v =>
      simp only []
      have hb := hbody st k v h hv
      obtain ⟨i1, i2, i3, i4, i5, i6⟩ := ih (body st k v) hb.closing
      have mono : ∀ k' w, ((body st k v).channelAt c).members.get? k' = some w →
          (st.channelAt c).members.get? k' = some w := by
        intro k' w hw
        rw [hb.members] at hw
        exact Table.get?_of_get?_delete _ hw
      have monoSub : ∀ p n, ((body st k v).sessionAt p).Subscriptions.contains n = true →
          (st.sessionAt p).Subscriptions.contains n = true := by
        intro p n hp
        rw [hb.subscriptions] at hp
        by_cases hpv : p = v
        · rw [if_pos hpv] at hp
          rw [hpv]
          by_cases hn : n = name
          · rw [hn, Table.contains_delete_self] at hp
            exact absurd hp (by simp)
          · rwa [Table.contains_delete_ne _ hn] at hp
        · rwa [if_neg hpv] at hp
      have gone : ((body st k v).sessionAt v).Subscriptions.contains name = false := by
        rw [hb.subscriptions, if_pos rfl, Table.contains_delete_self]
      refine ⟨i1, i2.trans hb.isClosed, fun k' w hw => mono k' w (i3 k' w hw),
        fun p n hp => monoSub p n (i4 p n hp), ?_, ?_⟩
      · intro k' hk'
        rcases List.mem_cons.mp hk' with hk | hk
        · cases hfin : ((rangeLoop (fun st => (st.channelAt c).members) body ks
            (body st k v)).channelAt c).members.get? k' with
          | none => rfl
          | some w =>
            have := i3 k' w hfin
            rw [hb.members, hk, Table.get?_delete_self] at this
            exact absurd this (by simp)
        · exact i5 k' hk
      · intro k' hk' w hw
        by_cases hkk : k' = k
        · rw [hkk, hv] at hw
          rw [← Option.some.inj hw]
          cases hfin : ((rangeLoop (fun st => (st.channelAt c).members) body ks
            (body st k v)).sessionAt v).Subscriptions.contains name with
          | false => rfl
          | true =>
            have := i4 v name hfin
            rw [gone] at this
            exact absurd this (by simp)
        · rcases List.mem_cons.mp hk' with hk | hk
          · exact absurd hk hkk
          · refine i6 k' hk w ?_
            rw [hb.members, Table.get?_delete_ne _ hkk]
            exact hw

theorem Channel.close_loop_evictsAll (e : Engine) (c : ChannelPtr)
    (body : Engine → Int → SessionPtr → Engine)
    (hbody : ∀ st k v, Channel.Closing c (e.channelAt c).name st →
      (st.channelAt c).members.get? k = some v →
      Channel.Evicted c (e.channelAt c).name k v st (body st k v))
    (hreg : e.channels.get? (e.channelAt c).name = some c)
    (hkey : ∀ k v, (e.channelAt c).members.get? k = some v → (e.sessionAt v).id = k) :
    Channel.EvictsAll e c
      (rangeLoop (fun st => (st.channelAt c).members) body
        ((e.setChannel c { e.channelAt c with isClosed := true }).channelAt c).members.keys
        (e.setChannel c { e.channelAt c with isClosed := true }), none) := by
  have hl := Engine.setChannel_closed_sameLinks e c
  have hclosing : Channel.Closing c (e.channelAt c).name
      (e.setChannel c { e.channelAt c with isClosed := true }) := by
    refine ⟨hreg, by simp, ?_⟩
    intro k v h
    rw [hl.members] at h
    exact hkey k v h
  obtain ⟨_, i2, i3, _, i5, i6⟩ := Channel.evict_loop c (e.channelAt c).name body hbody
    ((e.setChannel c { e.channelAt c with isClosed := true }).channelAt c).members.keys _ hclosing
  refine ⟨rfl, ?_, ?_, ?_⟩
  · show (_ : Bool) = true
    rw [Channel.IsClosed, i2]
    simp
  · intro k v h
    refine i6 k ?_ v (by rw [hl.members]; exact h)
    rw [← Table.contains_iff_mem_keys, hl.members]
    unfold Table.contains
    rw [h]
    rfl
  · have hempty := Table.eq_empty_of_get?_none _ (fun k => by
      cases hfin : ((rangeLoop (fun st => (st.channelAt c).members) body
          ((e.setChannel c { e.channelAt c with isClosed := true }).channelAt c).members.keys
          (e.setChannel c { e.channelAt c with isClosed := true })).channelAt c).members.get? k with
      | none => rfl
      | some w =>
        have hin : k ∈ ((e.setChannel c
            { e.channelAt c with isClosed := true }).channelAt c).members.keys := by
          rw [← Table.contains_iff_mem_keys]
          unfold Table.contains
          rw [i3 k w hfin]
          rfl
        have := i5 k hin
        rw [hfin] at this
        exact absurd this (by simp))
    show Table.len _ = 0
    rw [hempty]
    rfl

theorem Channel.Close_evictsAll (e : Engine) (c : ChannelPtr)
    (hopen : Channel.IsClosed e c = false)
    (hreg : e.channels.get? (e.channelAt c).name = some c)
    (hkey : ∀ k v, (e.channelAt c).members.get? k = some v → (e.sessionAt v).id = k) :
    Channel.EvictsAll e c (Channel.Close e c) := by
  have hopen' : (e.channelAt c).isClosed = false := hopen
  have := Channel.close_loop_evictsAll e c
    (fun st _ v => (Session.Unsubscribe st v (st.channelAt c).name).1) (by
      intro st k v hc hv
      simp only [hc.name_eq]
      rw [(Session.Unsubscribe_evicted hc hv).1]
      exact (Session.Unsubscribe_evicted hc hv).2) hreg hkey
  simpa [Channel.Close, hopen'] using this

theorem Channel.closeWithPayload_evictsAll (net : Transport) (e : Engine) (c : ChannelPtr)
    (p : Payload) (hopen : Channel.IsClosed e c = false)
    (hreg : e.channels.get? (e.channelAt c).name = some c)
    (hkey : ∀ k v, (e.channelAt c).members.get? k = some v → (e.sessionAt v).id = k) :
    Channel.EvictsAll e c (Channel.closeWithPayload net e c p) := by
  have hopen' : (e.channelAt c).isClosed = false := hopen
  have := Channel.close_loop_evictsAll e c
    (fun st _ v => Channel.closeStep net c p st v) (by
      intro st k v hc hv
      simp only [Channel.closeStep, hc.name_eq]
      rw [(Session.Unsubscribe_evicted hc hv).1]
      exact (Session.Unsubscribe_evicted hc hv).2.of_sameHeap
        (Session.writePayload_sameHeap net _ v p)) hreg hkey
  simpa [Channel.closeWithPayload, hopen'] using this

/-! ## Broadcast -/

theorem writesOf_append (l l' : List Event) : writesOf (l ++ l') = writesOf l ++ writesOf l' := by
  induction l with
  | nil => rfl
  | cons a t ih => cases a <;> simp [writesOf, ih]

theorem Session.writePayload_writes (net : Transport) (e : Engine) (s : SessionPtr)
    (p : Payload) : writesOf (Session.writePayload net e s p).1.trace =
      writesOf e.trace ++ [(s, p)] := by
  simp only [Session.writePayload]
  split <;> simp [writesOf_append, writesOf]

theorem lookupKey_of_mem {K V : Type} [DecidableEq K] (l : List (K × V))
    (hnd : (l.map Prod.fst).Nodup) (kv : K × V) (h : kv ∈ l) :
    lookupKey l kv.1 = some kv.2 := by
  induction l with
  | nil => simp at h
  | cons a t ih =>
    obtain ⟨a1, a2⟩ := a
    simp only [List.map_cons, List.nodup_cons] at hnd
    rcases List.mem_cons.mp h with h1 | h1
    · subst h1
      simp [lookupKey]
    · have hne : a1 ≠ kv.1 := by
        intro heq
        exact hnd.1 (heq ▸ List.mem_map_of_mem Prod.fst h1)
      simp only [lookupKey, hne, if_false]
      exact ih hnd.2 h1

theorem rangeLoop_stable {σ K V : Type} [DecidableEq K] (live : σ → Table K V)
    (body : σ → K → V → σ) (hlive : ∀ st k v, live (body st k v) = live st) :
    ∀ (l : List (K × V)) (st : σ), (∀ kv ∈ l, (live st).get? kv.1 = some kv.2) →
      rangeLoop live body (l.map Prod.fst) st = l.foldl (fun st kv => body st kv.1 kv.2) st := by
  intro l
  induction l with
  | nil => intro st _; rfl
  | cons a t ih =>
    intro st h
    simp only [List.map_cons, List.foldl_cons]
    unfold rangeLoop
    rw [h a (List.mem_cons_self a t)]
    simp only []
    refine ih _ ?_
    intro kv hkv
    rw [hlive]
    exact h kv (List.mem_cons_of_mem a hkv)

theorem Channel.broadcast_fold (net : Transport) (p : Payload)
    (cond : Engine → SessionPtr → Bool)
    (hcond : ∀ st st' v, Engine.SameHeap st st' → cond st' v = cond st v) :
    ∀ (l : List (Int × SessionPtr)) (st : Engine),
      Engine.SameHeap st (l.foldl (fun st kv =>
        if cond st kv.2 then (Session.writePayload net st kv.2 p).1 else st) st) ∧
      writesOf (l.foldl (fun st kv =>
        if cond st kv.2 then (Session.writePayload net st kv.2 p).1 else st) st).trace =
        writesOf st.trace ++ (l.filter (fun kv => cond st kv.2)).map (fun kv => (kv.2, p)) := by
  intro l
  induction l with
  | nil => intro st; exact ⟨Engine.SameHeap.sameHeap_refl st, by simp⟩
  | cons a t ih =>
    intro st
    simp only [List.foldl_cons]
    by_cases hc : cond st a.2 = true
    · have hs := Session.writePayload_sameHeap net st a.2 p
      obtain ⟨i1, i2⟩ := ih (Session.writePayload net st a.2 p).1
      simp only [hc, if_true]
      refine ⟨hs.sameHeap_trans i1, ?_⟩
      rw [i2, Session.writePayload_writes]
      simp [hcond st _ _ hs, List.filter_cons, hc]
    · obtain ⟨i1, i2⟩ := ih st
      rw [if_neg hc]
      refine ⟨i1, ?_⟩
      rw [i2]
      simp [List.filter_cons, hc]

theorem Channel.broadcastWith_writes (net : Transport) (e : Engine) (c : ChannelPtr)
    (p : Payload) (cond : Engine → SessionPtr → Bool)
    (hcond : ∀ st st' v, Engine.SameHeap st st' → cond st' v = cond st v)
    (hopen : Channel.IsClosed e c = false)
    (hnodup : (e.channelAt c).members.keys.Nodup) :
    Channel.WritesExactly e c p (cond e) (Channel.broadcastWith net e c p cond) := by
  have hopen' : (e.channelAt c).isClosed = false := hopen
  unfold Channel.WritesExactly Channel.broadcastWith Channel.broadcastLoop
  simp only [hopen', Bool.false_eq_true, if_false, true_and]
  have hstable := rangeLoop_stable (fun st : Engine => (st.channelAt c).members)
    (fun st _ v => if cond st v then (Session.writePayload net st v p).1 else st) (by
      intro st k v
      by_cases hc : cond st v = true
      · simp only [hc, if_true]
        rw [(Session.writePayload_sameHeap net st v p).channelAt]
      · simp only [hc]
        rfl) (e.channelAt c).members.entries e
    (fun kv hkv => lookupKey_of_mem _ hnodup kv hkv)
  unfold Table.keys
  rw [hstable]
  exact (Channel.broadcast_fold net p cond hcond _ e).2

/-! ## Runs -/

theorem rangeLoop_frame {K V : Type} [DecidableEq K] (live : Engine → Table K V)
    (body : Engine → K → V → Engine) (hbody : ∀ st k v, Engine.Frame st (body st k v))
    (ks : List K) (e : Engine) : Engine.Frame e (rangeLoop live body ks e) :=
  rangeLoop_induct live body (fun st => Engine.Frame e st)
    (fun st k v h _ => h.frame_trans (hbody st k v)) ks e (Engine.Frame.frame_refl e)

theorem Engine.setSession_frame (e : Engine) (p : SessionPtr) (s : Session)
    (h : s.id = (e.sessionAt p).id) : Engine.Frame e (e.setSession p s) := by
  refine ⟨rfl, rfl, rfl, rfl, rfl, ?_, fun _ => rfl⟩
  intro q
  by_cases hq : q = p
  · rw [hq, Engine.setSession_sessionAt_self, h]
  · simp [Engine.setSession_sessionAt, hq]

theorem Engine.setChannel_frame (e : Engine) (p : ChannelPtr) (c : Channel)
    (h : c.name = (e.channelAt p).name) : Engine.Frame e (e.setChannel p c) := by
  refine ⟨rfl, rfl, rfl, rfl, rfl, fun _ => rfl, ?_⟩
  intro q
  by_cases hq : q = p
  · rw [hq, Engine.setChannel_channelAt_self, h]
  · simp [Engine.setChannel_channelAt, hq]

theorem Session.writePayload_frame (net : Transport) (e : Engine) (s : SessionPtr)
    (p : Payload) : Engine.Frame e (Session.writePayload net e s p).1 :=
  (Session.writePayload_sameHeap net e s p).sameLinks.frame

theorem Session.sessionClose_frame (net : Transport) (e : Engine) (s : SessionPtr) :
    Engine.Frame e (Session.Close net e s).1 :=
  (Session.Close_sameLinks net e s).frame

theorem Session.sessionCloseWithPayload_frame (net : Transport) (e : Engine) (s : SessionPtr)
    (p : Payload) : Engine.Frame e (Session.closeWithPayload net e s p).1 := by
  unfold Session.closeWithPayload
  simp only []
  cases h : (Session.writePayload net e s p).2 with
  | some err => exact Session.writePayload_frame net e s p
  | none =>
    simp only []
    have h2 := (Session.writePayload_frame net e s p).frame_trans
      (Session.sessionClose_frame net (Session.writePayload net e s p).1 s)
    cases (Session.Close net (Session.writePayload net e s p).1 s).2 <;> exact h2

theorem Session.Delete_frame (e : Engine) (s : SessionPtr) (k : String) :
    Engine.Frame e (Session.Delete e s k).1 := by
  unfold Session.Delete
  cases (e.sessionAt s).store.get? k with
  | none => exact Engine.Frame.frame_refl e
  | some v => exact Engine.setSession_frame e s _ rfl

theorem Session.UnsubscribeAll_frame (e : Engine) (s : SessionPtr) :
    Engine.Frame e (Session.UnsubscribeAll e s) :=
  rangeLoop_frame _ _ (fun st k _ => Session.Unsubscribe_frame st s k) _ e

theorem Channel.broadcastWith_frame (net : Transport) (e : Engine) (c : ChannelPtr)
    (p : Payload) (cond : Engine → SessionPtr → Bool) :
    Engine.Frame e (Channel.broadcastWith net e c p cond).1 := by
  unfold Channel.broadcastWith Channel.broadcastLoop
  by_cases h : (e.channelAt c).isClosed = true
  · simp only [h, if_true]
    exact Engine.Frame.frame_refl e
  · simp only [h]
    refine rangeLoop_frame _ _ ?_ _ e
    intro st k v
    by_cases hc : cond st v = true
    · simp only [hc, if_true]
      exact Session.writePayload_frame net st v p
    · simp only [hc]
      exact Engine.Frame.frame_refl st

theorem Channel.channelClose_frame (e : Engine) (c : ChannelPtr) :
    Engine.Frame e (Channel.Close e c).1 := by
  unfold Channel.Close
  by_cases h : (e.channelAt c).isClosed = true
  · simp only [h, if_true]
    exact Engine.Frame.frame_refl e
  · simp only [h]
    exact (Engine.setChannel_closed_sameLinks e c).frame.frame_trans
      (rangeLoop_frame _ _ (fun st _ v => Session.Unsubscribe_frame st v _) _ _)

theorem Channel.channelCloseWithPayload_frame (net : Transport) (e : Engine) (c : ChannelPtr)
    (p : Payload) : Engine.Frame e (Channel.closeWithPayload net e c p).1 := by
  unfold Channel.closeWithPayload
  by_cases h : (e.channelAt c).isClosed = true
  · simp only [h, if_true]
    exact Engine.Frame.frame_refl e
  · simp only [h]
    exact (Engine.setChannel_closed_sameLinks e c).frame.frame_trans
      (rangeLoop_frame _ _ (fun st _ v =>
        (Session.Unsubscribe_frame st v _).frame_trans (Session.writePayload_frame net _ v p)) _ _)

theorem Engine.engineClose_frame (net : Transport) (e : Engine) :
    Engine.Frame e (Engine.Close net e) := by
  have h := rangeLoop_frame (fun st : Engine => st.sessions)
    (fun st _ v => (Session.Close net st v).1) (fun st _ v => Session.sessionClose_frame net st v)
    e.sessions.keys e
  exact ⟨h.sessions, h.channels, h.lastID, h.nextSession, h.nextChannel, h.id, h.name⟩

theorem Engine.engineCloseWithPayload_frame (net : Transport) (e : Engine) (p : Payload) :
    Engine.Frame e (Engine.closeWithPayload net e p) := by
  have h := rangeLoop_frame (fun st : Engine => st.sessions)
    (fun st _ v => (Session.closeWithPayload net st v p).1)
    (fun st _ v => Session.sessionCloseWithPayload_frame net st v p) e.sessions.keys e
  exact ⟨h.sessions, h.channels, h.lastID, h.nextSession, h.nextChannel, h.id, h.name⟩

theorem Engine.Frame.sameSessions {e e' : Engine} (h : Engine.Frame e e') :
    Engine.SameSessions e e' :=
  ⟨h.sessions, h.lastID, h.nextSession, h.id⟩

theorem Engine.after_sameSessions (net : Transport) (e : Engine) (c : Call) :
    (∃ conn, c = Call.NewSession conn) ∨
      (Engine.SameSessions e (e.after net c) ∧ e.created c = []) := by
  cases c with
  | NewSession conn => exact Or.inl ⟨conn, rfl⟩
  | NewChannel name conf => exact Or.inr ⟨⟨rfl, rfl, rfl, fun _ => rfl⟩, rfl⟩
  | makeSessions c => exact Or.inr ⟨⟨rfl, rfl, rfl, fun _ => rfl⟩, rfl⟩
  | Set s k v =>
    exact Or.inr ⟨(Engine.setSession_frame e s
      { e.sessionAt s with store := (e.sessionAt s).store.set k v } rfl).sameSessions, rfl⟩
  | Delete s k => exact Or.inr ⟨(Session.Delete_frame e s k).sameSessions, rfl⟩
  | Write s msg => exact Or.inr ⟨(Session.writePayload_frame net e s _).sameSessions, rfl⟩
  | WriteBinary s msg => exact Or.inr ⟨(Session.writePayload_frame net e s _).sameSessions, rfl⟩
  | SessionClose s => exact Or.inr ⟨(Session.sessionClose_frame net e s).sameSessions, rfl⟩
  | SessionCloseWithMsg s msg =>
    exact Or.inr ⟨(Session.sessionCloseWithPayload_frame net e s _).sameSessions, rfl⟩
  | SessionCloseWithBinary s msg =>
    exact Or.inr ⟨(Session.sessionCloseWithPayload_frame net e s _).sameSessions, rfl⟩
  | Subscribe s ch => exact Or.inr ⟨(Session.Subscribe_frame e s ch).sameSessions, rfl⟩
  | Unsubscribe s ch => exact Or.inr ⟨(Session.Unsubscribe_frame e s ch).sameSessions, rfl⟩
  | UnsubscribeAll s => exact Or.inr ⟨(Session.UnsubscribeAll_frame e s).sameSessions, rfl⟩
  | Broadcast c msg => exact Or.inr ⟨(Channel.broadcastWith_frame net e c _ _).sameSessions, rfl⟩
  | BroadcastFilter c msg fn =>
    exact Or.inr ⟨(Channel.broadcastWith_frame net e c _ _).sameSessions, rfl⟩
  | BroadcastOthers c msg x =>
    exact Or.inr ⟨(Channel.broadcastWith_frame net e c _ _).sameSessions, rfl⟩
  | BroadcastBinary c msg =>
    exact Or.inr ⟨(Channel.broadcastWith_frame net e c _ _).sameSessions, rfl⟩
  | BroadcastBinaryFilter c msg fn =>
    exact Or.inr ⟨(Channel.broadcastWith_frame net e c _ _).sameSessions, rfl⟩
  | BroadcastBinaryOthers c msg x =>
    exact Or.inr ⟨(Channel.broadcastWith_frame net e c _ _).sameSessions, rfl⟩
  | ChannelClose c => exact Or.inr ⟨(Channel.channelClose_frame e c).sameSessions, rfl⟩
  | ChannelCloseWithMsg c msg =>
    exact Or.inr ⟨(Channel.channelCloseWithPayload_frame net e c _).sameSessions, rfl⟩
  | ChannelCloseWithBinary c msg =>
    exact Or.inr ⟨(Channel.channelCloseWithPayload_frame net e c _).sameSessions, rfl⟩
  | EngineClose => exact Or.inr ⟨(Engine.engineClose_frame net e).sameSessions, rfl⟩
  | EngineCloseWithMsg msg =>
    exact Or.inr ⟨(Engine.engineCloseWithPayload_frame net e _).sameSessions, rfl⟩
  | EngineCloseWithBinary msg =>
    exact Or.inr ⟨(Engine.engineCloseWithPayload_frame net e _).sameSessions, rfl⟩

theorem Engine.NewSession_bounded {e : Engine} (conn : Conn) (hb : e.Bounded) :
    (e.NewSession conn).1.Bounded := by
  intro i s h
  rw [Engine.NewSession_sessions_get?] at h
  show i ≤ e.lastID + 1 ∧ s < e.nextSession + 1
  by_cases hi : i = e.lastID + 1
  · rw [if_pos hi] at h
    rw [← Option.some.inj h, hi]
    exact ⟨le_refl _, Nat.lt_succ_self _⟩
  · rw [if_neg hi] at h
    obtain ⟨h1, h2⟩ := hb i s h
    exact ⟨by omega, Nat.lt_succ_of_lt h2⟩

theorem Engine.SameSessions.bounded {e e' : Engine} (h : Engine.SameSessions e e')
    (hb : e.Bounded) : e'.Bounded := by
  intro i s hs
  rw [h.sessions] at hs
  rw [h.lastID, h.nextSession]
  exact hb i s hs

theorem Engine.run_spec (net : Transport) : ∀ (cs : List Call) (e : Engine), e.Bounded →
    (Engine.run net e cs).1.Bounded ∧
    (Engine.run net e cs).1.lastID = e.lastID + ((Engine.run net e cs).2.length : Int) ∧
    (Engine.run net e cs).2.map Prod.snd =
      (List.range (Engine.run net e cs).2.length).map (fun (k : Nat) => e.lastID + 1 + (k : Int)) ∧
    (∀ q ∈ (Engine.run net e cs).2,
      (Engine.run net e cs).1.sessions.get? q.2 = some q.1 ∧
      ((Engine.run net e cs).1.sessionAt q.1).id = q.2) ∧
    (∀ i s, e.sessions.get? i = some s →
      (Engine.run net e cs).1.sessions.get? i = some s ∧
      ((Engine.run net e cs).1.sessionAt s).id = (e.sessionAt s).id) := by
  intro cs
  induction cs with
  | nil =>
    intro e hb
    refine ⟨hb, by simp [Engine.run], by simp [Engine.run], ?_, fun i s h => ⟨h, rfl⟩⟩
    intro q hq
    simp [Engine.run] at hq
  | cons c cs ih =>
    intro e hb
    rcases Engine.after_sameSessions net e c with ⟨conn, hc⟩ | ⟨hs, hnone⟩
    · subst hc
      obtain ⟨i1, i2, i3, i4, i5⟩ := ih (e.NewSession conn).1 (Engine.NewSession_bounded conn hb)
      have hrun : Engine.run net e (Call.NewSession conn :: cs) =
          ((Engine.run net (e.NewSession conn).1 cs).1,
            (e.nextSession, e.lastID + 1) :: (Engine.run net (e.NewSession conn).1 cs).2) := by
        simp [Engine.run, Engine.after, Engine.created, Engine.NewSession]
      have hlast : (e.NewSession conn).1.lastID = e.lastID + 1 := rfl
      have hnew : (e.NewSession conn).1.sessions.get? (e.lastID + 1) = some e.nextSession := by
        rw [Engine.NewSession_sessions_get?, if_pos rfl]
      have hnewid : ((e.NewSession conn).1.sessionAt e.nextSession).id = e.lastID + 1 := by
        rw [Engine.NewSession_sessionAt, if_pos rfl]
      rw [hrun]
      refine ⟨i1, ?_, ?_, ?_, ?_⟩
      · rw [i2, hlast]
        simp only [List.length_cons]
        push_cast
        ring
      · simp only [List.map_cons, List.length_cons, List.range_succ_eq_map, i3, hlast,
          List.map_map]
        refine congrArg₂ _ (by simp) ?_
        apply List.map_congr_left
        intro k _
        simp only [Function.comp]
        push_cast
        ring
      · intro q hq
        rcases List.mem_cons.mp hq with h | h
        · rw [h]
          refine ⟨(i5 _ _ hnew).1, ?_⟩
          rw [(i5 _ _ hnew).2]
          exact hnewid
        · exact i4 q h
      · intro i s h
        have hbi := hb i s h
        have h1 : (e.NewSession conn).1.sessions.get? i = some s := by
          rw [Engine.NewSession_sessions_get?, if_neg (by omega)]
          exact h
        refine ⟨(i5 i s h1).1, ?_⟩
        rw [(i5 i s h1).2, Engine.NewSession_sessionAt, if_neg (Nat.ne_of_lt hbi.2)]
    · obtain ⟨i1, i2, i3, i4, i5⟩ := ih (e.after net c) (hs.bounded hb)
      have hrun : Engine.run net e (c :: cs) = Engine.run net (e.after net c) cs := by
        simp [Engine.run, hnone]
      rw [hrun]
      rw [hs.lastID] at i2 i3
      refine ⟨i1, i2, i3, i4, ?_⟩
      intro i s h
      rw [← hs.sessions] at h
      rw [← hs.id]
      exact i5 i s h

theorem NewServer_bounded (conf : EngineConfig) : (NewServer conf).Bounded := by
  intro i s h
  simp [NewServer, Table.get?, Table.empty, lookupKey] at h

/-! ## `Engine.Close` -/

theorem Session.Close_isClosed (net : Transport) (e : Engine) (s p : SessionPtr) :
    ((Session.Close net e s).1.sessionAt s).isClosed = true ∧
    ((e.sessionAt p).isClosed = true → ((Session.Close net e s).1.sessionAt p).isClosed = true) := by
  unfold Session.Close
  by_cases h : (e.sessionAt s).isClosed = true
  · rw [if_pos h]
    exact ⟨h, fun hp => hp⟩
  · rw [if_neg h]
    refine ⟨by simp, ?_⟩
    intro hp
    by_cases hps : p = s
    · simp [hps]
    · simpa [Engine.setSession_sessionAt, hps] using hp

theorem Engine.close_loop (net : Transport) : ∀ (ks : List Int) (st : Engine),
    (rangeLoop (fun st : Engine => st.sessions)
      (fun st _ v => (Session.Close net st v).1) ks st).sessions = st.sessions ∧
    (∀ p, (st.sessionAt p).isClosed = true →
      ((rangeLoop (fun st : Engine => st.sessions)
        (fun st _ v => (Session.Close net st v).1) ks st).sessionAt p).isClosed = true) ∧
    (∀ k ∈ ks, ∀ s, st.sessions.get? k = some s →
      ((rangeLoop (fun st : Engine => st.sessions)
        (fun st _ v => (Session.Close net st v).1) ks st).sessionAt s).isClosed = true) := by
  intro ks
  induction ks with
  | nil =>
    intro st
    refine ⟨rfl, fun _ h => h, ?_⟩
    intro k hk
    simp at hk
  | cons k ks ih =>
    intro st
    unfold rangeLoop
    cases hv : st.sessions.get? k with
    | none =>
      simp only []
      obtain ⟨i1, i2, i3⟩ := ih st
      refine ⟨i1, i2, ?_⟩
      intro k' hk' s hs
      rcases List.mem_cons.mp hk' with h | h
      · rw [h, hv] at hs
        exact absurd hs (by simp)
      · exact i3 k' h s hs
    | some v =>
      simp only []
      obtain ⟨i1, i2, i3⟩ := ih (Session.Close net st v).1
      have hsess : (Session.Close net st v).1.sessions = st.sessions :=
        (Session.sessionClose_frame net st v).sessions
      refine ⟨i1.trans hsess, fun p hp => i2 p ((Session.Close_isClosed net st v p).2 hp), ?_⟩
      intro k' hk' s hs
      rcases List.mem_cons.mp hk' with h | h
      · rw [h, hv] at hs
        rw [← Option.some.inj hs]
        exact i2 v (Session.Close_isClosed net st v v).1
      · exact i3 k' h s (by rw [hsess]; exact hs)

/-- After `Engine.Close` the engine is closed and every session of the session
table is closed, whatever the transport answers. -/
theorem Engine.Close_closes_every_session (net : Transport) (e : Engine) :
    Engine.IsClosed (Engine.Close net e) = true ∧
    ∀ i s, e.sessions.get? i = some s → Session.IsClosed (Engine.Close net e) s = true := by
  refine ⟨rfl, ?_⟩
  intro i s h
  have hk : i ∈ e.sessions.keys := by
    rw [← Table.contains_iff_mem_keys]
    unfold Table.contains
    rw [h]
    rfl
  exact (Engine.close_loop net e.sessions.keys e).2.2 i hk s h

/-! ## `Subscribe` followed by `Unsubscribe` -/

theorem Session.unsubscribed_subscribed (e : Engine) (s : SessionPtr) (ch : String)
    (v : ChannelPtr) (m : Table Int SessionPtr) (hm : (e.channelAt v).Sessions = some m)
    (hnot : (e.channelAt v).members.contains (e.sessionAt s).id = false)
    (hsub : (e.sessionAt s).Subscriptions.contains ch = false) :
    Session.unsubscribed (Session.subscribed e s ch v m) s ch v = e := by
  have hm' : m.get? (e.sessionAt s).id = none := by
    rw [Channel.members_some hm] at hnot
    simpa [Table.contains] using hnot
  have hs' : (e.sessionAt s).Subscriptions.get? ch = none := by
    simpa [Table.contains] using hsub
  have hchan : ({ e.channelAt v with Sessions := some m } : Channel) = e.channelAt v := by
    rw [← hm]
  have hfun : ∀ {α : Type} (f : Nat → α) (a : Nat) (x y : α), x = f a →
      Function.update (Function.update f a y) a x = f := by
    intro α f a x y hx
    rw [Function.update_idem, hx, Function.update_eq_self]
  have hE : ∀ (a b : Engine), a.sessions = b.sessions → a.channels = b.channels →
      a.config = b.config → a.isClosed = b.isClosed → a.lastID = b.lastID →
      a.sessionAt = b.sessionAt → a.channelAt = b.channelAt →
      a.nextSession = b.nextSession → a.nextChannel = b.nextChannel → a.trace = b.trace →
      a = b := by
    intro a b h1 h2 h3 h4 h5 h6 h7 h8 h9 h10
    cases a
    cases b
    simp only [Engine.mk.injEq]
    exact ⟨h1, h2, h3, h4, h5, h6, h7, h8, h9, h10⟩
  refine hE _ _ rfl rfl rfl rfl rfl ?_ ?_ rfl rfl rfl
  · show Function.update (Function.update e.sessionAt s _) s _ = e.sessionAt
    refine hfun _ _ _ _ ?_
    simp only [Session.subscribed, Engine.setSession_sessionAt_self]
    rw [Table.delete_set _ _ _ hs']
  · show Function.update (Function.update e.channelAt v _) v _ = e.channelAt
    refine hfun _ _ _ _ ?_
    simp only [Session.subscribed, Engine.setSession_channelAt, Engine.setChannel_channelAt_self,
      Engine.setSession_sessionAt_self, Option.map_some']
    rw [Table.delete_set _ _ _ hm']
    exact hchan

/-- When the member map of the registered channel is allocated and the session is
neither a member nor subscribed, `Subscribe` returns nil, the session is
subscribed and a member, the channel has one member more, a following
`Unsubscribe` returns nil and restores the state, and a further `Unsubscribe`
returns channel-not-subscribed. -/
theorem Session.Subscribe_Unsubscribe_roundtrip (e : Engine) (s : SessionPtr) (ch : String)
    (v : ChannelPtr) (m : Table Int SessionPtr) (hv : e.channels.get? ch = some v)
    (hm : (e.channelAt v).Sessions = some m)
    (hnot : Channel.Contains e v s = false) (hsub : Session.IsSubscribed e s ch = false) :
    (Session.Subscribe e s ch).2 = Outcome.returned none ∧
    Session.IsSubscribed (Session.Subscribe e s ch).1 s ch = true ∧
    Channel.Contains (Session.Subscribe e s ch).1 v s = true ∧
    Channel.Len (Session.Subscribe e s ch).1 v = Channel.Len e v + 1 ∧
    Session.Unsubscribe (Session.Subscribe e s ch).1 s ch = (e, none) ∧
    (Session.Unsubscribe e s ch).2 = some Error.ErrChannelNotSubscribed := by
  have hnot' : (e.channelAt v).members.contains (e.sessionAt s).id = false := hnot
  have hsubscribe : Session.Subscribe e s ch =
      (Session.subscribed e s ch v m, Outcome.returned none) := by
    simp [Session.Subscribe, hv, hnot', hm, Session.subscribed]
  have hf := Session.subscribed_frame e s ch v m
  have hmem := Session.subscribed_members e s ch v m hm v
  rw [if_pos rfl] at hmem
  have hcont : ((Session.subscribed e s ch v m).channelAt v).members.contains
      ((Session.subscribed e s ch v m).sessionAt s).id = true := by
    rw [hmem, hf.id, Table.contains_set_self]
  rw [hsubscribe]
  refine ⟨rfl, ?_, hcont, ?_, ?_, ?_⟩
  · show ((Session.subscribed e s ch v m).sessionAt s).Subscriptions.contains ch = true
    rw [Session.subscribed_subscriptions, if_pos rfl, Table.contains_set_self]
  · show ((Session.subscribed e s ch v m).channelAt v).members.len =
      (e.channelAt v).members.len + 1
    rw [hmem]
    exact Table.len_set _ _ _ (by simpa [Table.contains] using hnot')
  · have : Session.Unsubscribe (Session.subscribed e s ch v m) s ch =
        (Session.unsubscribed (Session.subscribed e s ch v m) s ch v, none) := by
      have hv' : (Session.subscribed e s ch v m).channels.get? ch = some v := by
        rw [hf.channels]
        exact hv
      simp only [Session.Unsubscribe, hv', hcont, if_true]
      rfl
    rw [this, Session.unsubscribed_subscribed e s ch v m hm hnot' hsub]
  · simp [Session.Unsubscribe, hv, hnot']

end HeapFacts

/-! ## The claims -/

/-- C1 (amended): consistency of the engine state, that is a well-formed heap
together with bidirectional membership, is kept by `NewSession`, `Subscribe`,
`Unsubscribe`, `UnsubscribeAll`, `Session.Close`, `Channel.Close`,
`Channel.CloseWithMsg` and `Channel.CloseWithBinary` for every argument (the
receiver being a session of the engine), and by `NewChannel` for every name that
no session has in its subscription set. -/
theorem membership_preserved (net : Transport) (e : Engine) (hc : e.Consistent) :
    (∀ name conf, (∀ i s, e.sessions.get? i = some s →
        (e.sessionAt s).Subscriptions.contains name = false) →
      (e.NewChannel name conf).1.Consistent) ∧
    (∀ conn, (e.NewSession conn).1.Consistent) ∧
    (∀ s ch, e.HasSession s → (Session.Subscribe e s ch).1.Consistent) ∧
    (∀ s ch, e.HasSession s → (Session.Unsubscribe e s ch).1.Consistent) ∧
    (∀ s, e.HasSession s → (Session.UnsubscribeAll e s).Consistent) ∧
    (∀ s, (Session.Close net e s).1.Consistent) ∧
    (∀ c, (Channel.Close e c).1.Consistent) ∧
    (∀ c msg, (Channel.CloseWithMsg net e c msg).1.Consistent) ∧
    (∀ c msg, (Channel.CloseWithBinary net e c msg).1.Consistent) := by
  refine ⟨?_, ?_, ?_, ?_, ?_, ?_, ?_, ?_, ?_⟩
  · intro name conf hfree
    exact ⟨Engine.NewChannel_wellFormed name conf hc.1,
      Engine.NewChannel_membership name conf hc hfree⟩
  · intro conn
    exact ⟨Engine.NewSession_wellFormed conn hc.1, Engine.NewSession_membership conn hc⟩
  · intro s ch hs
    exact ⟨Session.Subscribe_wellFormed ch hc.1 hs, Session.Subscribe_membership ch hc.1 hc.2 hs⟩
  · intro s ch hs
    exact ⟨Session.Unsubscribe_wellFormed ch hc.1 hs,
      Session.Unsubscribe_membership ch hc.1 hc.2 hs⟩
  · intro s hs
    exact (Session.UnsubscribeAll_consistent hc hs).1
  · intro s
    exact (Session.Close_sameLinks net e s).consistent hc
  · intro c
    exact Channel.Close_consistent c hc
  · intro c msg
    exact Channel.closeWithPayload_consistent net c _ hc
  · intro c msg
    exact Channel.closeWithPayload_consistent net c _ hc

/-- C1, witness: the engine with one session subscribed to `"room"` is consistent,
and stays so after `Unsubscribe` and after `Channel.Close`. -/
theorem membership_preserved_witness :
    Example.joined.Consistent ∧
    (Session.Unsubscribe Example.joined 0 "room").1.Consistent ∧
    (Channel.Close Example.joined 0).1.Consistent :=
  ⟨Example.joined_consistent,
    (membership_preserved Example.net Example.joined Example.joined_consistent).2.2.2.1 0 "room"
      (by decide),
    (membership_preserved Example.net Example.joined
      Example.joined_consistent).2.2.2.2.2.2.1 0⟩

/-- C1, counterexample: with one session subscribed to `"room"` the state is
consistent, and `NewChannel("room")` breaks bidirectional membership: the session
still has `"room"` in its subscription set and the registered channel has no
member. -/
theorem membership_broken_by_NewChannel :
    Example.joined.Consistent ∧ ¬ (Example.joined.NewChannel "room" none).1.Membership := by
  refine ⟨Example.joined_consistent, ?_⟩
  intro h
  have h1 := h 1 0 "room" 1 (by decide) (by decide)
  revert h1
  decide

/-- C2 (amended): `Session.Close` on an open session sets the closed flag, closes
the transport once and returns what the transport returned; the subscription set
of every session and every channel are left as they were. -/
theorem Session.Close_open (net : Transport) (e : Engine) (s : SessionPtr)
    (hopen : Session.IsClosed e s = false) :
    Session.IsClosed (Session.Close net e s).1 s = true ∧
    (Session.Close net e s).2 = (net.Close (e.sessionAt s).conn e.trace).map Error.transport ∧
    (Session.Close net e s).1.trace =
      e.trace ++ [Event.connClose s (e.sessionAt s).conn (net.Close (e.sessionAt s).conn e.trace)] ∧
    (Session.Close net e s).1.channelAt = e.channelAt ∧
    (∀ p, ((Session.Close net e s).1.sessionAt p).Subscriptions =
      (e.sessionAt p).Subscriptions) := by
  have hopen' : (e.sessionAt s).isClosed = false := hopen
  refine ⟨?_, ?_, ?_, ?_, ?_⟩
  · simp [Session.Close, hopen', Session.IsClosed]
  · simp [Session.Close, hopen']
  · simp [Session.Close, hopen']
  · simp [Session.Close, hopen']
  · exact (Session.Close_sameLinks net e s).subscriptions

/-- C2, witness: the open session of the example engine. -/
theorem Session.Close_open_witness :
    Session.IsClosed Example.joined 0 = false ∧
    Session.IsClosed (Session.Close Example.net Example.joined 0).1 0 = true :=
  ⟨by decide, (Session.Close_open Example.net Example.joined 0 (by decide)).1⟩

/-- C2, counterexample: closing the open session of the example engine leaves it
in the session table (`Len` is still 1 and the entry under id 1 is the closed
session), in the member set of `"room"` and subscribed to `"room"`. -/
theorem Session.Close_keeps_table_and_membership :
    Session.IsClosed Example.joined 0 = false ∧
    Engine.Len Example.joined = 1 ∧
    Engine.Len (Session.Close Example.net Example.joined 0).1 = 1 ∧
    (Session.Close Example.net Example.joined 0).1.sessions.get? 1 = some 0 ∧
    Session.IsClosed (Session.Close Example.net Example.joined 0).1 0 = true ∧
    Channel.Contains (Session.Close Example.net Example.joined 0).1 0 0 = true ∧
    Session.IsSubscribed (Session.Close Example.net Example.joined 0).1 0 "room" = true := by
  decide

/-- As long as an open channel is still the channel registered under its name, and
its members are stored under their ids, `Close`, `CloseWithMsg` and
`CloseWithBinary` return no error, leave the channel closed and without members,
and leave every former member unsubscribed from the channel name. -/
theorem Channel.Close_evicts_every_member (net : Transport) (e : Engine) (c : ChannelPtr)
    (msg : String) (bin : List Nat) (hopen : Channel.IsClosed e c = false)
    (hreg : e.channels.get? (e.channelAt c).name = some c)
    (hkey : ∀ k v, (e.channelAt c).members.get? k = some v → (e.sessionAt v).id = k) :
    Channel.EvictsAll e c (Channel.Close e c) ∧
    Channel.EvictsAll e c (Channel.CloseWithMsg net e c msg) ∧
    Channel.EvictsAll e c (Channel.CloseWithBinary net e c bin) :=
  ⟨Channel.Close_evictsAll e c hopen hreg hkey,
    Channel.closeWithPayload_evictsAll net e c _ hopen hreg hkey,
    Channel.closeWithPayload_evictsAll net e c _ hopen hreg hkey⟩

/-- The channel `"room"` of the example engine, with its one member, is such a
channel. -/
theorem Channel.Close_evicts_every_member_witness :
    Channel.IsClosed Example.joined 0 = false ∧
    Channel.Len Example.joined 0 = 1 ∧
    Channel.EvictsAll Example.joined 0 (Channel.Close Example.joined 0) :=
  ⟨by decide, by decide,
    (Channel.Close_evicts_every_member Example.net Example.joined 0 "bye" [] (by decide)
      (by decide)
      (fun k v h => Example.joined_consistent.1.session_id k v
        (Example.joined_consistent.1.member 0 k v h))).1⟩

/-- C4: the failing input.  On a new server, after `NewChannel("room", nil)` and
`NewSession(conn)`, the name `"room"` is registered and the session is not a
member, yet `Subscribe("room")` does not return: the assignment to the nil map
`Sessions` panics, and the state is left as it was (the session is not
subscribed, the channel has no member). -/
theorem Session.Subscribe_panics_on_new_channel :
    Example.lobby = ((((NewServer DefaultConfig).NewChannel "room" none).1).NewSession 7).1 ∧
    Example.lobby.channels.get? "room" = some 0 ∧
    Channel.Contains Example.lobby 0 0 = false ∧
    (Session.Subscribe Example.lobby 0 "room").2 = Outcome.panicked ∧
    Session.IsSubscribed (Session.Subscribe Example.lobby 0 "room").1 0 "room" = false ∧
    Channel.Contains (Session.Subscribe Example.lobby 0 "room").1 0 0 = false ∧
    Channel.Len (Session.Subscribe Example.lobby 0 "room").1 0 = 0 :=
  ⟨rfl, by decide, by decide, by decide, by decide, by decide, by decide⟩

/-- C5: `Subscribe` returns channel-not-found exactly when the name is not in the
channel table and channel-subscribed exactly when it is registered and the id of
the session is in the member set of that channel; `Unsubscribe` returns
channel-not-found exactly when the name is not registered and
channel-not-subscribed exactly when it is registered and the id is not a member;
and whenever either call does not return nil the whole state, so every
subscription set and member set, is unchanged. -/
theorem Session.subscription_errors_exact (e : Engine) (s : SessionPtr) (ch : String) :
    ((Session.Subscribe e s ch).2 = Outcome.returned (some Error.ErrChannelNotFound) ↔
      e.channels.get? ch = none) ∧
    ((Session.Subscribe e s ch).2 = Outcome.returned (some Error.ErrChannelSubscribed) ↔
      ∃ v, e.channels.get? ch = some v ∧
        (e.channelAt v).members.contains (e.sessionAt s).id = true) ∧
    ((Session.Unsubscribe e s ch).2 = some Error.ErrChannelNotFound ↔
      e.channels.get? ch = none) ∧
    ((Session.Unsubscribe e s ch).2 = some Error.ErrChannelNotSubscribed ↔
      ∃ v, e.channels.get? ch = some v ∧
        (e.channelAt v).members.contains (e.sessionAt s).id = false) ∧
    ((Session.Subscribe e s ch).2 ≠ Outcome.returned none → (Session.Subscribe e s ch).1 = e) ∧
    ((Session.Unsubscribe e s ch).2 ≠ none → (Session.Unsubscribe e s ch).1 = e) := by
  refine ⟨?_, ?_, ?_, ?_, ?_, ?_⟩
  · rcases Session.Subscribe_cases e s ch with ⟨h0, h⟩ | ⟨v, hv, _, h⟩ | ⟨v, hv, _, _, h⟩ |
      ⟨v, m, hv, _, _, h⟩ <;> simp [*]
  · rcases Session.Subscribe_cases e s ch with ⟨h0, h⟩ | ⟨v, hv, hc, h⟩ | ⟨v, hv, hc, _, h⟩ |
      ⟨v, m, hv, hc, _, h⟩ <;> simp [*]
  · rcases Session.Unsubscribe_cases e s ch with ⟨h0, h⟩ | ⟨v, hv, _, h⟩ | ⟨v, hv, _, h⟩ <;>
      simp [*]
  · rcases Session.Unsubscribe_cases e s ch with ⟨h0, h⟩ | ⟨v, hv, hc, h⟩ | ⟨v, hv, hc, h⟩ <;>
      simp [*]
  · rcases Session.Subscribe_cases e s ch with ⟨h0, h⟩ | ⟨v, hv, _, h⟩ | ⟨v, hv, _, _, h⟩ |
      ⟨v, m, hv, _, _, h⟩ <;> simp [*]
  · rcases Session.Unsubscribe_cases e s ch with ⟨h0, h⟩ | ⟨v, hv, _, h⟩ | ⟨v, hv, _, h⟩ <;>
      simp [*]

/-- C6: on an open channel, `Broadcast` adds to the trace exactly one write of the
message for each entry of the member map, `BroadcastFilter` one for each member on
which the predicate is true, `BroadcastOthers` one for each member other than the
given session, and no other write; this holds whatever the transport answers to
each write, and the call returns no error.  The binary variants do the same. -/
theorem Channel.Broadcast_writes_to_members (net : Transport) (e : Engine) (c : ChannelPtr)
    (msg : String) (bin : List Nat) (fn : SessionPtr → Session → Bool) (x : SessionPtr)
    (hopen : Channel.IsClosed e c = false)
    (hnodup : (e.channelAt c).members.keys.Nodup) :
    Channel.WritesExactly e c (Payload.text msg) (fun _ => true)
      (Channel.Broadcast net e c msg) ∧
    Channel.WritesExactly e c (Payload.text msg) (fun v => fn v (e.sessionAt v))
      (Channel.BroadcastFilter net e c msg fn) ∧
    Channel.WritesExactly e c (Payload.text msg) (fun v => decide (v ≠ x))
      (Channel.BroadcastOthers net e c msg x) ∧
    Channel.WritesExactly e c (Payload.binary bin) (fun _ => true)
      (Channel.BroadcastBinary net e c bin) ∧
    Channel.WritesExactly e c (Payload.binary bin) (fun v => fn v (e.sessionAt v))
      (Channel.BroadcastBinaryFilter net e c bin fn) ∧
    Channel.WritesExactly e c (Payload.binary bin) (fun v => decide (v ≠ x))
      (Channel.BroadcastBinaryOthers net e c bin x) := by
  have hfn : ∀ st st' v, Engine.SameHeap st st' →
      fn v (st'.sessionAt v) = fn v (st.sessionAt v) := by
    intro st st' v h
    rw [h.sessionAt]
  exact ⟨Channel.broadcastWith_writes net e c _ _ (fun _ _ _ _ => rfl) hopen hnodup,
    Channel.broadcastWith_writes net e c _ _ hfn hopen hnodup,
    Channel.broadcastWith_writes net e c _ _ (fun _ _ _ _ => rfl) hopen hnodup,
    Channel.broadcastWith_writes net e c _ _ (fun _ _ _ _ => rfl) hopen hnodup,
    Channel.broadcastWith_writes net e c _ _ hfn hopen hnodup,
    Channel.broadcastWith_writes net e c _ _ (fun _ _ _ _ => rfl) hopen hnodup⟩

/-- C6, witness: three sessions, two of them members of `"room"`, and a transport
on which every write fails. -/
theorem Channel.Broadcast_writes_to_members_witness :
    Channel.IsClosed Example.party 0 = false ∧
    (Example.party.channelAt 0).members.keys.Nodup ∧
    (Example.party.channelAt 0).members.entries = [(2, 1), (1, 0)] ∧
    Channel.WritesExactly Example.party 0 (Payload.text "x") (fun _ => true)
      (Channel.Broadcast Example.failing Example.party 0 "x") :=
  ⟨by decide, by decide, by decide,
    (Channel.Broadcast_writes_to_members Example.failing Example.party 0 "x" []
      (fun _ _ => true) 0 (by decide) (by decide)).1⟩

/-- C7: the failing input.  In `Channel.CloseWithMsg` on a channel with one member
the write to the member is made in the state that `Unsubscribe` left: at that
point the member is no longer in the member set of the channel and no longer has
the channel name in its subscription set. -/
theorem Channel.CloseWithMsg_evicts_before_write :
    Channel.IsClosed Example.joined 0 = false ∧
    Channel.Contains Example.joined 0 0 = true ∧
    Session.IsSubscribed Example.joined 0 "room" = true ∧
    (Channel.CloseWithMsg Example.net Example.joined 0 "bye").1 =
      (Session.Write Example.net (Session.Unsubscribe Example.closing 0 "room").1 0 "bye").1 ∧
    Channel.Contains (Session.Unsubscribe Example.closing 0 "room").1 0 0 = false ∧
    Session.IsSubscribed (Session.Unsubscribe Example.closing 0 "room").1 0 "room" = false ∧
    writesOf (Channel.CloseWithMsg Example.net Example.joined 0 "bye").1.trace =
      [(0, Payload.text "bye")] :=
  ⟨by decide, by decide, by decide, rfl, by decide, by decide, by decide⟩

/-- C8 (amended): on a closed session a second `Close` returns session-closed and
changes nothing, so the transport is not closed again; `Subscribe`, `Unsubscribe`
and `Delete` do not read the closed flag: whatever value `b` the flag has, they
return the same result and make the same change to the state. -/
theorem Session.closed_session_operations (net : Transport) (e : Engine) (s : SessionPtr)
    (hclosed : Session.IsClosed e s = true) :
    Session.Close net e s = (e, some Error.ErrSessionClosed) ∧
    (∀ b ch, Session.Subscribe (e.withClosed s b) s ch =
      ((Session.Subscribe e s ch).1.withClosed s b, (Session.Subscribe e s ch).2)) ∧
    (∀ b ch, Session.Unsubscribe (e.withClosed s b) s ch =
      ((Session.Unsubscribe e s ch).1.withClosed s b, (Session.Unsubscribe e s ch).2)) ∧
    (∀ b k, Session.Delete (e.withClosed s b) s k =
      ((Session.Delete e s k).1.withClosed s b, (Session.Delete e s k).2)) := by
  have hclosed' : (e.sessionAt s).isClosed = true := hclosed
  refine ⟨?_, ?_, ?_, ?_⟩
  · simp [Session.Close, hclosed']
  · intro b ch
    unfold Session.Subscribe
    simp only [Engine.withClosed, Engine.setSession_channels, Engine.setSession_channelAt,
      Engine.setSession_sessionAt_self]
    cases e.channels.get? ch with
    | none => rfl
    | some v =>
      simp only []
      by_cases hc : (e.channelAt v).members.contains (e.sessionAt s).id = true
      · simp only [hc, if_true]
      · simp only [hc]
        cases (e.channelAt v).Sessions with
        | none => rfl
        | some m =>
          simp [Engine.setSession, Engine.setChannel, Function.update_idem]
  · intro b ch
    unfold Session.Unsubscribe
    simp only [Engine.withClosed, Engine.setSession_channels, Engine.setSession_channelAt,
      Engine.setSession_sessionAt_self]
    cases e.channels.get? ch with
    | none => rfl
    | some v =>
      simp only []
      by_cases hc : (e.channelAt v).members.contains (e.sessionAt s).id = true
      · simp [hc, Engine.setSession, Engine.setChannel, Function.update_idem]
      · simp only [hc]
        rfl
  · intro b k
    unfold Session.Delete
    simp only [Engine.withClosed, Engine.setSession_sessionAt_self]
    cases (e.sessionAt s).store.get? k with
    | none => rfl
    | some v => simp [Engine.setSession, Function.update_idem]

/-- C8, witness: the closed session of the example engine. -/
theorem Session.closed_session_operations_witness :
    Session.IsClosed Example.closed 0 = true ∧
    Session.Close Example.net Example.closed 0 = (Example.closed, some Error.ErrSessionClosed) :=
  ⟨by decide, (Session.closed_session_operations Example.net Example.closed 0 (by decide)).1⟩

/-- C8, counterexample: on the closed session of the example engine `Write` calls
the transport and returns its error, not session-closed; `Delete` of a stored key
returns nil and removes the key; `Unsubscribe` returns nil and removes the
session from the member set and the name from the subscription set. -/
theorem Session.closed_session_is_still_mutable :
    Session.IsClosed Example.closed 0 = true ∧
    (Session.Write Example.failing Example.closed 0 "hi").2 = some (Error.transport 1) ∧
    (Session.Write Example.failing Example.closed 0 "hi").1.trace =
      Example.closed.trace ++ [Event.write 0 7 (Payload.text "hi") (some 1)] ∧
    Session.Get Example.closed 0 "k" = some (Value.int 5) ∧
    (Session.Delete Example.closed 0 "k").2 = none ∧
    Session.Get (Session.Delete Example.closed 0 "k").1 0 "k" = none ∧
    Channel.Contains Example.closed 0 0 = true ∧
    Session.IsSubscribed Example.closed 0 "room" = true ∧
    (Session.Unsubscribe Example.closed 0 "room").2 = none ∧
    Channel.Contains (Session.Unsubscribe Example.closed 0 "room").1 0 0 = false ∧
    Session.IsSubscribed (Session.Unsubscribe Example.closed 0 "room").1 0 "room" = false := by
  decide

/-- C9: the failing input.  With one open session in the table and a transport
whose write fails, `Engine.CloseWithMsg` marks the engine closed, but the session
is still open and its connection was never closed: the only transport call is the
failed write. -/
theorem Engine.CloseWithMsg_leaves_session_open :
    Example.lobby.sessions.get? 1 = some 0 ∧
    Session.IsClosed Example.lobby 0 = false ∧
    Engine.IsClosed (Engine.CloseWithMsg Example.failing Example.lobby "bye") = true ∧
    Session.IsClosed (Engine.CloseWithMsg Example.failing Example.lobby "bye") 0 = false ∧
    (Engine.CloseWithMsg Example.failing Example.lobby "bye").trace =
      [Event.write 0 7 (Payload.text "bye") (some 1)] := by
  decide

/-- C10: on an engine returned by `NewServer`, whatever other calls are made in
between, the ids returned by the successive calls of `NewSession` are 1, 2, 3, ...
(the k-th call returns id k); each returned session is stored in the session table
under its id and keeps that id; so the ids are strictly increasing in the order of
creation, hence pairwise different. -/
theorem Engine.NewSession_ids_count_from_one (net : Transport) (conf : EngineConfig)
    (calls : List Call) :
    (Engine.run net (NewServer conf) calls).2.map Prod.snd =
      (List.range (Engine.run net (NewServer conf) calls).2.length).map
        (fun (k : Nat) => (k : Int) + 1) ∧
    (∀ q ∈ (Engine.run net (NewServer conf) calls).2,
      (Engine.run net (NewServer conf) calls).1.sessions.get? q.2 = some q.1 ∧
      ((Engine.run net (NewServer conf) calls).1.sessionAt q.1).id = q.2) ∧
    ((Engine.run net (NewServer conf) calls).2.map Prod.snd).Pairwise (fun a b => a < b) ∧
    ((Engine.run net (NewServer conf) calls).2.map Prod.snd).Nodup := by
  obtain ⟨_, _, h3, h4, _⟩ := Engine.run_spec net calls (NewServer conf) (NewServer_bounded conf)
  have hmap : (Engine.run net (NewServer conf) calls).2.map Prod.snd =
      (List.range (Engine.run net (NewServer conf) calls).2.length).map
        (fun (k : Nat) => (k : Int) + 1) := by
    rw [h3]
    apply List.map_congr_left
    intro k _
    show (0 : Int) + 1 + (k : Int) = (k : Int) + 1
    ring
  have hpair : ((Engine.run net (NewServer conf) calls).2.map Prod.snd).Pairwise
      (fun a b => a < b) := by
    rw [hmap]
    refine List.Pairwise.map _ ?_ (List.pairwise_lt_range _)
    intro a b hab
    have : (a : Int) < (b : Int) := by exact_mod_cast hab
    omega
  refine ⟨hmap, h4, hpair, ?_⟩
  exact hpair.imp (fun h => ne_of_lt h)

/-- C3: the failing input.  After `NewChannel("room")` was called a second time,
the first channel is still an open channel created by `NewChannel`, with one
member.  `Close` on it returns nil and marks it closed, but `Unsubscribe` looks
the name up in the channel table, finds the second channel and returns
channel-not-subscribed: the member is still in the member set of the first
channel (`Len` is 1) and still subscribed to `"room"`.  `CloseWithMsg` does the
same. -/
theorem Channel.Close_of_replaced_channel_keeps_members :
    Example.replaced = (Example.joined.NewChannel "room" none).1 ∧
    Example.replaced.channels.get? "room" = some 1 ∧
    Channel.IsClosed Example.replaced 0 = false ∧
    Channel.Contains Example.replaced 0 0 = true ∧
    Session.IsSubscribed Example.replaced 0 "room" = true ∧
    (Session.Unsubscribe Example.replaced 0 "room").2 = some Error.ErrChannelNotSubscribed ∧
    (Channel.Close Example.replaced 0).2 = none ∧
    Channel.IsClosed (Channel.Close Example.replaced 0).1 0 = true ∧
    Channel.Len (Channel.Close Example.replaced 0).1 0 = 1 ∧
    Channel.Contains (Channel.Close Example.replaced 0).1 0 0 = true ∧
    Session.IsSubscribed (Channel.Close Example.replaced 0).1 0 "room" = true ∧
    (Channel.CloseWithMsg Example.net Example.replaced 0 "bye").2 = none ∧
    Channel.Len (Channel.CloseWithMsg Example.net Example.replaced 0 "bye").1 0 = 1 ∧
    Session.IsSubscribed (Channel.CloseWithMsg Example.net Example.replaced 0 "bye").1 0
      "room" = true :=
  ⟨rfl, by decide, by decide, by decide, by decide, by decide, by decide, by decide,
    by decide, by decide, by decide, by decide, by decide, by decide⟩

/-- C11: in the scratch store of any session, after `Set(k, v)` the call `Get(k)`
returns `(v, true)` and `Get(k')` for another key returns what it returned before;
a following `Delete(k)` returns nil, after which `Get(k)` returns `(_, false)` and
`Get(k')` is still what it was at the start; and `Delete(k)` on a key that is
absent returns key-not-found and leaves the whole state unchanged. -/
theorem Session.store_roundtrip (e : Engine) (s : SessionPtr) (k k' : String) (v : Value)
    (hne : k' ≠ k) :
    Session.Get (Session.Set e s k v) s k = some v ∧
    Session.Get (Session.Set e s k v) s k' = Session.Get e s k' ∧
    (Session.Delete (Session.Set e s k v) s k).2 = none ∧
    Session.Get (Session.Delete (Session.Set e s k v) s k).1 s k = none ∧
    Session.Get (Session.Delete (Session.Set e s k v) s k).1 s k' = Session.Get e s k' ∧
    (Session.Get e s k = none → Session.Delete e s k = (e, some Error.ErrKeyNotFound)) := by
  have hset : ((Session.Set e s k v).sessionAt s).store = (e.sessionAt s).store.set k v := by
    simp [Session.Set]
  have hget : ((Session.Set e s k v).sessionAt s).store.get? k = some v := by
    rw [hset, Table.get?_set_self]
  have hdel : Session.Delete (Session.Set e s k v) s k =
      ((Session.Set e s k v).setSession s
        { (Session.Set e s k v).sessionAt s with
          store := ((Session.Set e s k v).sessionAt s).store.delete k }, none) := by
    simp only [Session.Delete, hget]
  refine ⟨hget, ?_, ?_, ?_, ?_, ?_⟩
  · show ((Session.Set e s k v).sessionAt s).store.get? k' = (e.sessionAt s).store.get? k'
    rw [hset, Table.get?_set_ne _ _ hne]
  · rw [hdel]
  · rw [hdel]
    simp [Session.Get, Table.get?_delete_self]
  · rw [hdel]
    simp only [Session.Get, Engine.setSession_sessionAt_self]
    rw [Table.get?_delete_ne _ hne, hset, Table.get?_set_ne _ _ hne]
  · intro h
    have h' : (e.sessionAt s).store.get? k = none := h
    simp only [Session.Delete, h']

/-- C11, witness: the keys `"k"` and `"j"` in the store of the session of the
example engine. -/
theorem Session.store_roundtrip_witness :
    "j" ≠ "k" ∧
    Session.Get (Session.Set Example.joined 0 "k" (Value.int 5)) 0 "k" = some (Value.int 5) ∧
    Session.Get (Session.Delete (Session.Set Example.joined 0 "k" (Value.int 5)) 0 "k").1 0 "k" =
      none :=
  ⟨by decide,
    (Session.store_roundtrip Example.joined 0 "k" "j" (Value.int 5) (by decide)).1,
    (Session.store_roundtrip Example.joined 0 "k" "j" (Value.int 5) (by decide)).2.2.2.1⟩

/-- C12: the values `DefaultConfig` returns.  `MaxMessageSize` is 10 MiB, the
handshake timeout is 30 seconds and both buffer sizes are 1024; but `WriteWait`,
`PongWait` and `PingPeriod` are the bare integers 30, 10 and 20, which as
`time.Duration` values are 30, 10 and 20 nanoseconds, not 30, 10 and 20
seconds. -/
theorem DefaultConfig_durations_are_nanoseconds :
    DefaultConfig.WriteWait = 30 ∧ DefaultConfig.WriteWait ≠ 30 * Second ∧
    DefaultConfig.PongWait = 10 ∧ DefaultConfig.PongWait ≠ 10 * Second ∧
    DefaultConfig.PingPeriod = 20 ∧ DefaultConfig.PingPeriod ≠ 20 * Second ∧
    DefaultConfig.MaxMessageSize = 10485760 ∧
    DefaultConfig.Upgrader.HandshakeTimeout = 30 * Second ∧
    DefaultConfig.Upgrader.HandshakeTimeout = 30000000000 ∧
    DefaultConfig.Upgrader.ReadBufferSize = 1024 ∧
    DefaultConfig.Upgrader.WriteBufferSize = 1024 := by
  decide

end Junipero
